import Mathlib

/-!
Verification development for the heudiconv conversion core
(`heudiconv/utils.py`): series grouping (`group_dicoms_into_seqinfos`),
study-session resolution (`get_study_sessions`, `get_extracted_dicoms`),
the conversion-plan cache (`convert_dicoms`), JSON persistence
(`save_json` / `load_json`) and plan expansion (`conversion_info`).

The Python code is shallowly embedded: one DICOM file's extracted metadata
becomes a `DicomRecord`; reading files from disk becomes a function
`String → Option DicomRecord`; the on-disk artifact store becomes a
function `String → Option FileData`; Python exceptions become `Except`
errors.  External collaborators (the `dicom`/`dcmstack` readers, `glob`,
`os.walk`, tarfile extraction, `str.format`) are supplied as parameters.
-/

set_option synthInstance.maxSize 4000

deriving instance DecidableEq for Except

namespace HeudiConv

/-! ## String ordering (Python sorts strings by code points) -/

/-- Strict code-point comparison of characters, as Python compares
single characters. -/
def charLt (a b : Char) : Bool := a.toNat < b.toNat

/-- Lexicographic `<=` on character lists: Python's string comparison. -/
def listStrLe : List Char → List Char → Bool
  | [], _ => true
  | _ :: _, [] => false
  | a :: as, b :: bs => if a = b then listStrLe as bs else charLt a b

/-- Python's `<=` on strings (lexicographic by code point). -/
def strLe (a b : String) : Bool := listStrLe a.data b.data

theorem charLt_asymm {a b : Char} : charLt a b = true → charLt b a = true → False := by
  simp only [charLt, decide_eq_true_eq]
  omega

theorem charLt_total {a b : Char} (h : a ≠ b) : charLt a b = true ∨ charLt b a = true := by
  simp only [charLt, decide_eq_true_eq]
  rcases Nat.lt_trichotomy a.toNat b.toNat with h1 | h1 | h1
  · exact Or.inl h1
  · exact absurd (Char.ext (UInt32.ext h1)) h
  · exact Or.inr h1

theorem charLt_trans {a b c : Char} (h1 : charLt a b = true) (h2 : charLt b c = true) :
    charLt a c = true := by
  simp only [charLt, decide_eq_true_eq] at *
  omega

theorem charLt_ne {a b : Char} (h : charLt a b = true) : a ≠ b := by
  intro he
  subst he
  exact charLt_asymm h h

theorem listStrLe_total : ∀ a b : List Char, listStrLe a b = true ∨ listStrLe b a = true
  | [], _ => by left; rfl
  | _ :: _, [] => by right; rfl
  | a :: as, b :: bs => by
    by_cases hab : a = b
    · subst hab
      simpa [listStrLe] using listStrLe_total as bs
    · rcases charLt_total hab with h | h
      · left; simp [listStrLe, hab, h]
      · right; simp [listStrLe, Ne.symm hab, h]

theorem listStrLe_antisymm : ∀ {a b : List Char},
    listStrLe a b = true → listStrLe b a = true → a = b
  | [], [], _, _ => rfl
  | [], _ :: _, _, h2 => by simp [listStrLe] at h2
  | _ :: _, [], h1, _ => by simp [listStrLe] at h1
  | a :: as, b :: bs, h1, h2 => by
    by_cases hab : a = b
    · subst hab
      simp only [listStrLe, if_pos rfl] at h1 h2
      exact congrArg (a :: ·) (listStrLe_antisymm h1 h2)
    · simp only [listStrLe, if_neg hab, if_neg (Ne.symm hab)] at h1 h2
      exact absurd rfl (charLt_ne (charLt_trans h1 h2))

theorem listStrLe_trans : ∀ {a b c : List Char},
    listStrLe a b = true → listStrLe b c = true → listStrLe a c = true
  | [], _, _, _, _ => rfl
  | _ :: _, [], _, h1, _ => by simp [listStrLe] at h1
  | _ :: _, _ :: _, [], _, h2 => by simp [listStrLe] at h2
  | a :: as, b :: bs, c :: cs, h1, h2 => by
    by_cases hab : a = b <;> by_cases hbc : b = c
    · subst hab; subst hbc
      simp only [listStrLe, if_pos rfl] at *
      exact listStrLe_trans h1 h2
    · subst hab
      simpa [listStrLe, hbc] using h2
    · subst hbc
      simpa [listStrLe, hab] using h1
    · simp only [listStrLe, if_neg hab, if_neg hbc] at h1 h2
      have hac : charLt a c = true := charLt_trans h1 h2
      simp [listStrLe, charLt_ne hac, hac]

theorem strLe_total (a b : String) : strLe a b = true ∨ strLe b a = true :=
  listStrLe_total a.data b.data

theorem strLe_antisymm {a b : String} (h1 : strLe a b = true) (h2 : strLe b a = true) :
    a = b := by
  cases a; cases b
  exact congrArg String.mk (listStrLe_antisymm h1 h2)

theorem strLe_trans {a b c : String} (h1 : strLe a b = true) (h2 : strLe b c = true) :
    strLe a c = true :=
  listStrLe_trans h1 h2

/-! ## Generic comparator combinators (for Python tuple comparison) -/

/-- Python comparison of optional values (`None` sorts below everything;
relevant for the study-UID slot of a series key). -/
def optLe (le : α → α → Bool) : Option α → Option α → Bool
  | none, _ => true
  | some _, none => false
  | some a, some b => le a b

/-- Lexicographic comparison of pairs, as Python compares tuples. -/
def lexLe [DecidableEq α] (la : α → α → Bool) (lb : β → β → Bool)
    (x y : α × β) : Bool :=
  if x.1 = y.1 then lb x.2 y.2 else la x.1 y.1

/-- `<=` on integers as a boolean. -/
def intLe (a b : Int) : Bool := decide (a ≤ b)

theorem optLe_total {le : α → α → Bool} (h : ∀ a b, le a b = true ∨ le b a = true) :
    ∀ x y, optLe le x y = true ∨ optLe le y x = true
  | none, _ => Or.inl rfl
  | some _, none => Or.inr rfl
  | some a, some b => h a b

theorem optLe_antisymm {le : α → α → Bool}
    (h : ∀ a b, le a b = true → le b a = true → a = b) :
    ∀ {x y}, optLe le x y = true → optLe le y x = true → x = y
  | none, none, _, _ => rfl
  | none, some _, _, h2 => by simp [optLe] at h2
  | some _, none, h1, _ => by simp [optLe] at h1
  | some a, some b, h1, h2 => congrArg some (h a b h1 h2)

theorem optLe_trans {le : α → α → Bool}
    (h : ∀ a b c, le a b = true → le b c = true → le a c = true) :
    ∀ {x y z}, optLe le x y = true → optLe le y z = true → optLe le x z = true
  | none, _, _, _, _ => rfl
  | some _, none, _, h1, _ => by simp [optLe] at h1
  | some _, some _, none, _, h2 => by simp [optLe] at h2
  | some a, some b, some c, h1, h2 => h a b c h1 h2

theorem lexLe_total [DecidableEq α] {la : α → α → Bool} {lb : β → β → Bool}
    (ha : ∀ a b, la a b = true ∨ la b a = true)
    (hb : ∀ a b, lb a b = true ∨ lb b a = true) :
    ∀ x y, lexLe la lb x y = true ∨ lexLe la lb y x = true := by
  intro x y
  by_cases h : x.1 = y.1
  · simpa [lexLe, h] using hb x.2 y.2
  · simpa [lexLe, h, Ne.symm h] using ha x.1 y.1

theorem lexLe_antisymm [DecidableEq α] {la : α → α → Bool} {lb : β → β → Bool}
    (ha : ∀ a b, la a b = true → la b a = true → a = b)
    (hb : ∀ a b, lb a b = true → lb b a = true → a = b) :
    ∀ {x y}, lexLe la lb x y = true → lexLe la lb y x = true → x = y := by
  intro x y h1 h2
  by_cases h : x.1 = y.1
  · simp only [lexLe, if_pos h, if_pos h.symm] at h1 h2
    exact Prod.ext h (hb _ _ h1 h2)
  · simp only [lexLe, if_neg h, if_neg (Ne.symm h)] at h1 h2
    exact absurd (ha _ _ h1 h2) h

theorem lexLe_trans [DecidableEq α] {la : α → α → Bool} {lb : β → β → Bool}
    (haa : ∀ a b, la a b = true → la b a = true → a = b)
    (ha : ∀ a b c, la a b = true → la b c = true → la a c = true)
    (hb : ∀ a b c, lb a b = true → lb b c = true → lb a c = true) :
    ∀ {x y z}, lexLe la lb x y = true → lexLe la lb y z = true →
      lexLe la lb x z = true := by
  intro x y z h1 h2
  by_cases hxy : x.1 = y.1 <;> by_cases hyz : y.1 = z.1
  · simp only [lexLe, if_pos hxy, if_pos hyz] at h1 h2
    simp only [lexLe, if_pos (hxy.trans hyz)]
    exact hb _ _ _ h1 h2
  · simp only [lexLe, if_pos hxy, if_neg hyz] at h1 h2
    simpa [lexLe, hxy, hyz] using h2
  · simp only [lexLe, if_neg hxy, if_pos hyz] at h1 h2
    have hne : x.1 ≠ z.1 := fun he => hxy (he.trans hyz.symm)
    simp [lexLe, hne, hyz ▸ h1]
  · simp only [lexLe, if_neg hxy, if_neg hyz] at h1 h2
    have hxz : la x.1 z.1 = true := ha _ _ _ h1 h2
    have hne : x.1 ≠ z.1 := by
      intro he
      exact hxy (haa _ _ h1 (he.symm ▸ h2))
    simp [lexLe, hne, hxz]

theorem intLe_total (a b : Int) : intLe a b = true ∨ intLe b a = true := by
  simp only [intLe, decide_eq_true_eq]
  omega

theorem intLe_antisymm {a b : Int} (h1 : intLe a b = true) (h2 : intLe b a = true) :
    a = b := by
  simp only [intLe, decide_eq_true_eq] at *
  omega

theorem intLe_trans {a b c : Int} (h1 : intLe a b = true) (h2 : intLe b c = true) :
    intLe a c = true := by
  simp only [intLe, decide_eq_true_eq] at *
  omega

/-! ## Data model

`DicomRecord` is the metadata view of one DICOM file, i.e. the wrapper
`mw = ds.wrapper_from_data(dcm.read_file(filename, force=True))` of
`group_dicoms_into_seqinfos` (utils.py:358).  Attributes whose absence the
code observes (via `AttributeError` or `.get`) are `Option`s; attributes
the code reads unconditionally are also `Option`s and raise the modelled
`AttributeError` when absent.  `signature` stands for the dcmstack
`series_signature` after the volatile fields `iop`, `ICE_Dims` and
`SequenceName` have been deleted (utils.py:360-364); dcmstack's
`is_same_series` compares these signatures. -/

structure DicomRecord where
  seriesNumber : Option Int
  protocolName : Option String
  studyInstanceUID : Option String
  /-- `repval` of element (0008,0016), the SOP storage class (utils.py:406). -/
  sopClassRepval : String
  /-- dcmstack series signature after volatile-field deletion. -/
  signature : String
  imageShape : Option (List Nat)
  /-- raw `RepetitionTime` in ms (before the `/ 1000.` at utils.py:469). -/
  repetitionTime : Option ℚ
  echoTime : Option ℚ
  referringPhysicianName : Option String
  imageType : Option (List String)
  seriesDescription : Option String
  accessionNumber : Option String
  patientID : Option String
  studyDescription : Option String
  patientAge : Option String
  patientSex : Option String
  acquisitionDate : Option String
  /-- value of tag (0018,0024) — GE and Philips sequence name (utils.py:485). -/
  seqName1824 : Option String
  /-- value of tag (0019,109c) — Siemens sequence name (utils.py:488). -/
  seqName19109c : Option String
deriving DecidableEq

/-- dcmstack's `is_same_series` (utils.py:418): equality of the trimmed
series signatures. -/
def is_same_series (a b : DicomRecord) : Bool := decide (a.signature = b.signature)

/-- A series key as built in `group_dicoms_into_seqinfos`: the Python tuple
`(seriesNumber, protocolName)` optionally extended with the file's study UID
(`series_id + (file_studyUID,)`, utils.py:412).  The third component is
`none` when no UID was appended (grouping not by study UID) and
`some u` when `u` (itself possibly Python `None`) was appended. -/
abbrev SKey := Int × String × Option (Option String)

instance : DecidableEq SKey := inferInstance

/-- Python's ordering of series-key tuples (used by `sorted(group_map.items())`,
utils.py:444): lexicographic on the components. -/
def keyLe : SKey → SKey → Bool :=
  lexLe intLe (lexLe strLe (optLe (optLe strLe)))

theorem keyLe_total (a b : SKey) : keyLe a b = true ∨ keyLe b a = true :=
  lexLe_total intLe_total
    (lexLe_total strLe_total (optLe_total (optLe_total strLe_total))) a b

theorem optStrLe_trans (a b c : Option String)
    (h1 : optLe strLe a b = true) (h2 : optLe strLe b c = true) :
    optLe strLe a c = true :=
  @optLe_trans String strLe (fun _ _ _ hx hy => strLe_trans hx hy) a b c h1 h2

theorem optOptStrLe_trans (a b c : Option (Option String))
    (h1 : optLe (optLe strLe) a b = true) (h2 : optLe (optLe strLe) b c = true) :
    optLe (optLe strLe) a c = true :=
  @optLe_trans (Option String) (optLe strLe) optStrLe_trans a b c h1 h2

theorem keyTailLe_trans (a b c : String × Option (Option String))
    (h1 : lexLe strLe (optLe (optLe strLe)) a b = true)
    (h2 : lexLe strLe (optLe (optLe strLe)) b c = true) :
    lexLe strLe (optLe (optLe strLe)) a c = true :=
  @lexLe_trans String (Option (Option String)) _ strLe (optLe (optLe strLe))
    (fun _ _ hx hy => strLe_antisymm hx hy)
    (fun _ _ _ hx hy => strLe_trans hx hy) optOptStrLe_trans a b c h1 h2

theorem keyLe_trans {a b c : SKey} (h1 : keyLe a b = true) (h2 : keyLe b c = true) :
    keyLe a c = true := by
  unfold keyLe at *
  exact @lexLe_trans Int (String × Option (Option String)) _ intLe
    (lexLe strLe (optLe (optLe strLe)))
    (fun _ _ hx hy => intLe_antisymm hx hy)
    (fun _ _ _ hx hy => intLe_trans hx hy) keyTailLe_trans a b c h1 h2

/-- Exceptions `group_dicoms_into_seqinfos` can raise. -/
inductive GroupErr
  /-- `ValueError('I do not know how to group by ...')` (utils.py:334). -/
  | valueError (grouping : Option String)
  /-- `dcm.read_file` failed for this filename. -/
  | readError (filename : String)
  /-- `assert studyUID == file_studyUID` (utils.py:383): more than one
  study encountered while not grouping per study. -/
  | singleStudyAssert
  /-- `assert mwgroup[idx].dcm_data.get('StudyInstanceUID', None) ==
  file_studyUID` (utils.py:422). -/
  | sameSeriesUIDAssert
  /-- `AttributeError` from an unguarded attribute access. -/
  | attrError
  /-- `IndexError` from positional indexing. -/
  | indexError
deriving DecidableEq

/-- Loop state of the clustering pass (utils.py:341-344): the list of cluster
representatives (`mwgroup`), the accumulated `zip(groups[0], groups[1])`
pairs of series key and representative index, and the single-study tracking
variable `studyUID`. -/
structure GState where
  mwgroup : List DicomRecord
  groups : List (SKey × Nat)
  studyUID : Option String
deriving DecidableEq

/-- Initial clustering state. -/
def initGState : GState := { mwgroup := [], groups := [], studyUID := none }

/-- The inner loop over existing cluster representatives
(utils.py:416-431).  Walks `reps` (the tail of `mwgroup` starting at
absolute index `idx`), carrying the running `series_id` value `sid` and the
`ingrp` flag.  For every representative with an equal series signature it
asserts that the representative's study UID equals `fileStudyUID`, then (for
a non-negative series key) replaces `series_id` with the representative's
`(SeriesNumber, ProtocolName)` — re-appending the study UID when grouping
per study — and appends `(series_id, idx)` to `groups`.  Returns the final
`series_id`, the `ingrp` flag, and the appended `groups` entries in order. -/
def matchReps (perStudyUID : Bool) (mw : DicomRecord) (fileStudyUID : Option String)
    (reps : List DicomRecord) (idx : Nat) (sid : SKey) (ingrp : Bool) :
    Except GroupErr (SKey × Bool × List (SKey × Nat)) :=
  match reps with
  | [] => .ok (sid, ingrp, [])
  | rep :: rest =>
    if is_same_series mw rep then
      -- the same series should have the same study uuid (utils.py:422)
      if rep.studyInstanceUID ≠ fileStudyUID then .error .sameSeriesUIDAssert
      else
        match (if 0 ≤ sid.1 then
            match rep.seriesNumber, rep.protocolName with
            | some n, some p =>
              .ok ((n, p, if perStudyUID then some fileStudyUID else none) : SKey)
            | _, _ => .error GroupErr.attrError
          else .ok sid : Except GroupErr SKey) with
        | .error e => .error e
        | .ok sid' =>
          match matchReps perStudyUID mw fileStudyUID rest (idx + 1) sid' true with
          | .error e => .error e
          | .ok (sidF, ingrpF, appended) => .ok (sidF, ingrpF, (sid', idx) :: appended)
    else
      matchReps perStudyUID mw fileStudyUID rest (idx + 1) sid ingrp

/-- The `try`/`except AttributeError` series-key extraction together with the
single-study bookkeeping (utils.py:373-389).  Given the current value of the
`studyUID` tracking variable and one record, yields the raw series id, the
record's `file_studyUID`, and the updated tracking variable.  When any of
`SeriesNumber`, `ProtocolName` or `StudyInstanceUID` is absent the
`AttributeError` branch yields `((-1, 'none'), None)` without touching the
tracking variable.  When not grouping per study the tracking variable is
seeded on first use, and when additionally not grouping by accession number
a second distinct study UID fails the `assert` at utils.py:383. -/
def extractSeriesId (perStudyUID perAccession : Bool) (stUID : Option String)
    (mw : DicomRecord) :
    Except GroupErr ((Int × String) × Option String × Option String) :=
  match mw.seriesNumber, mw.protocolName, mw.studyInstanceUID with
  | some n, some p, some uid =>
    if perStudyUID then .ok ((n, p), some uid, stUID)
    else
      match stUID with
      | none => .ok ((n, p), some uid, some uid)
      | some u =>
        if perAccession then .ok ((n, p), some uid, some u)
        else if u = uid then .ok ((n, p), some uid, some u)
        else .error GroupErr.singleStudyAssert
  | _, _, _ =>
    -- not a normal DICOM -> ignore (utils.py:384-389)
    .ok ((-1, "none"), none, stUID)

/-- Operator exclusion via `dcmfilter` (utils.py:391-393): a record the
filter flags has its series number demoted to -1 (keeping the protocol
name, whose unguarded access is an `AttributeError` when absent). -/
def applyDcmfilter (dcmfilter : Option (DicomRecord → Bool)) (mw : DicomRecord)
    (sid0 : Int × String) : Except GroupErr (Int × String) :=
  if 0 ≤ sid0.1 then
    match dcmfilter with
    | some df =>
      if df mw then
        match mw.protocolName with
        | some p => .ok ((-1 : Int), p)
        | none => .error GroupErr.attrError
      else .ok sid0
    | none => .ok sid0
  else .ok sid0

/-- Demotion of non-image storage classes to a negative series number
(utils.py:404-409). -/
def demoteNonImage (mw : DicomRecord) (sid1 : Int × String) :
    Except GroupErr (Int × String) :=
  if 0 ≤ sid1.1 ∧ (mw.sopClassRepval = "Raw Data Storage" ∨
      mw.sopClassRepval = "GrayscaleSoftcopyPresentationStateStorage") then
    match mw.protocolName with
    | some p => .ok ((-1 : Int), p)
    | none => .error GroupErr.attrError
  else .ok sid1

/-- Processing of one input file inside the main loop of
`group_dicoms_into_seqinfos` (utils.py:355-435): read the file, run the
`try`/`except AttributeError` series-key extraction with the single-study
assertion, apply `dcmfilter`, demote non-image storage classes to a
negative key, append the study UID when grouping per study, and run the
representative-matching loop, either joining clusters or becoming a new
representative.  (The `if not groups: raise RuntimeError` at utils.py:395-402
is dead code — `groups` is a non-empty pair of lists — and is omitted.) -/
def groupStep (perStudyUID perAccession : Bool)
    (dcmfilter : Option (DicomRecord → Bool))
    (read : String → Option DicomRecord)
    (st : GState) (filename : String) : Except GroupErr GState :=
  match read filename with
  | none => .error (.readError filename)
  | some mw =>
    match extractSeriesId perStudyUID perAccession st.studyUID mw with
    | .error e => .error e
    | .ok (sid0, fileStudyUID, stUID) =>
      match applyDcmfilter dcmfilter mw sid0 with
      | .error e => .error e
      | .ok sid1 =>
        match demoteNonImage mw sid1 with
        | .error e => .error e
        | .ok sid2 =>
          -- append the study UID when grouping per study (utils.py:411-412)
          let key : SKey := (sid2.1, sid2.2, if perStudyUID then some fileStudyUID else none)
          match matchReps perStudyUID mw fileStudyUID st.mwgroup 0 key false with
          | .error e => .error e
          | .ok (keyF, ingrp, appended) =>
            if ingrp then
              .ok { mwgroup := st.mwgroup, groups := st.groups ++ appended,
                    studyUID := stUID }
            else
              .ok { mwgroup := st.mwgroup ++ [mw],
                    groups := st.groups ++ appended ++ [(keyF, st.mwgroup.length)],
                    studyUID := stUID }

/-- The main `for fidx, filename in enumerate(files)` loop (utils.py:355):
fold `groupStep` over the (already filename-filtered) file list,
propagating any raised exception. -/
def foldSteps (step : GState → String → Except GroupErr GState) :
    GState → List String → Except GroupErr GState
  | st, [] => .ok st
  | st, f :: rest =>
    match step st f with
    | .ok st' => foldSteps step st' rest
    | .error e => .error e

/-! ## Small string/path helpers used by the output phase -/

/-- `b` is a leading piece of `a` (helper for the substring test). -/
def startsWithL : List Char → List Char → Bool
  | _, [] => true
  | [], _ :: _ => false
  | a :: as, b :: bs => decide (a = b) && startsWithL as bs

/-- `needle` occurs somewhere in the second argument: Python's
`needle in haystack` on strings. -/
def hasSubL (needle : List Char) : List Char → Bool
  | [] => startsWithL [] needle
  | c :: t => startsWithL (c :: t) needle || hasSubL needle t

/-- Python's substring containment `needle in hay`. -/
def strHasSub (hay needle : String) : Bool := hasSubL needle.data hay.data

/-- `str.lower()`. -/
def strToLower (s : String) : String := String.mk (s.data.map Char.toLower)

/-- `os.path.basename` / `os.path.split(...)[1]` for '/'-separated paths. -/
def pathBasename (s : String) : String :=
  String.mk (s.data.reverse.takeWhile (fun c => ¬ c = '/')).reverse

/-- `os.path.dirname` for '/'-separated paths. -/
def pathDirname (s : String) : String :=
  let head := (s.data.reverse.dropWhile (fun c => ¬ c = '/')).reverse
  if head.all (fun c => c = '/') then String.mk head
  else String.mk (head.reverse.dropWhile (fun c => c = '/')).reverse

/-- `os.path.join` of a directory and a relative name. -/
def pjoin (dir name : String) : String := dir ++ "/" ++ name

/-! ## Output phase of `group_dicoms_into_seqinfos` (utils.py:437-558) -/

/-- One key/value insertion into a Python dict: an existing key keeps its
position and gets the new value, a new key goes to the end. -/
def dictAssign (acc : List (SKey × Nat)) (kv : SKey × Nat) : List (SKey × Nat) :=
  if acc.any (fun e => decide (e.1 = kv.1)) then
    acc.map (fun e => if e.1 = kv.1 then kv else e)
  else acc ++ [kv]

/-- Python's `dict(zip(groups[0], groups[1]))` (utils.py:437): for duplicate
keys the last value wins, insertion order keeps the first occurrence's
position. -/
def dictLastWins (l : List (SKey × Nat)) : List (SKey × Nat) :=
  l.foldl dictAssign []

/-- `sorted(group_map.items())` (utils.py:444): Python sorts the items by
their tuple keys (the keys are unique, so the values never get compared). -/
def sortItems (l : List (SKey × Nat)) : List (SKey × Nat) :=
  List.insertionSort (fun a b => keyLe a.1 b.1 = true) l

/-- `[files[i] for i, s in enumerate(groups[0]) if s == series_id]`
(utils.py:454).  The walk is positional over the `groups` entries, so an
entry index beyond the files list is an `IndexError`. -/
def collectFiles : List (SKey × Nat) → List String → SKey → Nat →
    Except GroupErr (List String)
  | [], _, _, _ => .ok []
  | (s, _) :: rest, files, sid, i =>
    if s = sid then
      match files.get? i with
      | some f =>
        match collectFiles rest files sid (i + 1) with
        | .ok fs => .ok (f :: fs)
        | .error e => .error e
      | none => .error .indexError
    else collectFiles rest files sid (i + 1)

/-- The per-sequence summary namedtuple `SeqInfo` (utils.py:88-113). -/
structure SeqInfo where
  total_files_till_now : Nat
  example_dcm_file : String
  series_id : String
  unspecified1 : String
  unspecified2 : String
  unspecified3 : String
  dim1 : Nat
  dim2 : Nat
  dim3 : Nat
  dim4 : Nat
  TR : ℚ
  TE : ℚ
  protocol_name : String
  is_motion_corrected : Bool
  is_derived : Bool
  patient_id : Option String
  study_description : Option String
  referring_physician_name : String
  series_description : Option String
  sequence_name : String
  image_type : List String
  accession_number : Option String
  patient_age : Option String
  patient_sex : Option String
  date : Option String
deriving DecidableEq

/-- `size = list(mw.image_shape) + [len(series_files)]`, padded with a
trailing 1 when shorter than four entries (utils.py:464-467). -/
def sizeList (shape : List Nat) (seriesFiles : List String) : List Nat :=
  if (shape ++ [seriesFiles.length]).length < 4 then
    shape ++ [seriesFiles.length] ++ [1]
  else shape ++ [seriesFiles.length]

/-- Construction of one `SeqInfo` row (utils.py:462-517) from the cluster
representative `mw`, its image shape, the collected series files, the
running `total` counter and the (already UID-stripped) series key.
Returns the row together with the updated `total`. -/
def mkSeqInfo (mw : DicomRecord) (shape : List Nat) (seriesFiles : List String)
    (total : Nat) (sid2 : Int × String) : Except GroupErr (SeqInfo × Nat) :=
  -- series_files[0] (utils.py:496, 498): IndexError on an empty list
  match seriesFiles.head? with
  | none => .error .indexError
  | some f0 =>
    -- size = list(mw.image_shape) + [len(series_files)]; total += size[-1];
    -- if len(size) < 4: size.append(1)   (utils.py:464-467)
    match (sizeList shape seriesFiles).get? 0, (sizeList shape seriesFiles).get? 1,
        (sizeList shape seriesFiles).get? 2, (sizeList shape seriesFiles).get? 3 with
    | some dim1, some dim2, some dim3, some dim4 =>
      -- unguarded accesses ImageType / SeriesDescription / ProtocolName
      -- (utils.py:481-482, 502)
      match mw.imageType, mw.seriesDescription, mw.protocolName with
      | some image_type, some sdesc, some protocol_name =>
        .ok (
          { total_files_till_now := total + seriesFiles.length
            example_dcm_file := pathBasename f0
            series_id := toString sid2.1 ++ "-" ++ sid2.2
            unspecified1 := pathBasename (pathDirname f0)
            unspecified2 := "-"
            unspecified3 := "-"
            dim1 := dim1, dim2 := dim2, dim3 := dim3, dim4 := dim4
            -- TR/TE/refphys with AttributeError fallbacks (utils.py:468-479)
            TR := match mw.repetitionTime with
              | some r => r / 1000
              | none => -1
            TE := match mw.echoTime with
              | some r => r
              | none => -1
            protocol_name := protocol_name
            is_motion_corrected := strHasSub sdesc "MoCo" ||
              image_type.any (fun x => decide (x = "MOCO"))
            is_derived := ((mw.imageType.getD []).map strToLower).any
              (fun x => decide (x = "derived"))
            patient_id := mw.patientID
            study_description := mw.studyDescription
            referring_physician_name := match mw.referringPhysicianName with
              | some s => s
              | none => "-"
            series_description := mw.seriesDescription
            sequence_name := match mw.seqName1824 with
              | some v => v
              | none =>
                match mw.seqName19109c with
                | some v => v
                | none => "Not found"
            image_type := image_type
            accession_number := mw.accessionNumber
            patient_age := mw.patientAge
            patient_sex := mw.patientSex
            date := mw.acquisitionDate }, total + seriesFiles.length)
      | _, _, _ => .error .attrError
    | _, _, _, _ => .error .indexError

/-- One emitted output entry of the grouping: the originating tuple series
key, the outer dictionary key (study UID or accession number, when
grouping), the `SeqInfo` row, and the series' files. -/
structure TraceEntry where
  key : SKey
  outer : Option String
  info : SeqInfo
  files : List String
deriving DecidableEq

/-- The body of the output loop for one `(series_id, mwidx)` item of
`sorted(group_map.items())` (utils.py:444-546): series with a negative
series number are skipped (`.ok none`), clusters whose representative has
no image shape are skipped (`.ok none`), and each remaining series becomes
one `SeqInfo` row with its files and the outer dictionary key (study UID —
`series_id[2]` — or accession number). -/
def emitEntry (perStudyUID perAccession : Bool) (mwgroup : List DicomRecord)
    (groupsList : List (SKey × Nat)) (files : List String)
    (sid : SKey) (mwidx : Nat) (total : Nat) :
    Except GroupErr (Option (TraceEntry × Nat)) :=
  if sid.1 < 0 then
    -- skip our fake series with unwanted files (utils.py:445-447)
    .ok none
  else
    match mwgroup.get? mwidx with
    | none => .error .indexError
    | some mw =>
      match mw.imageShape with
      | none =>
        -- no image data, just move on (utils.py:449-452)
        .ok none
      | some shape =>
        match collectFiles groupsList files sid 0 with
        | .error e => .error e
        | .ok seriesFiles =>
          match mkSeqInfo mw shape seriesFiles total (sid.1, sid.2.1) with
          | .error e => .error e
          | .ok (info, total') =>
            .ok (some (
              { key := sid
                outer := if perStudyUID then sid.2.2.join
                  else if perAccession then mw.accessionNumber else none
                info := info
                files := seriesFiles }, total'))

/-- The output loop over `sorted(group_map.items())` (utils.py:444-548),
emitting one `TraceEntry` per kept series while threading the `total`
counter. -/
def buildEntries (perStudyUID perAccession : Bool) (mwgroup : List DicomRecord)
    (groupsList : List (SKey × Nat)) (files : List String) :
    List (SKey × Nat) → Nat → Except GroupErr (List TraceEntry)
  | [], _ => .ok []
  | (sid, mwidx) :: rest, total =>
    match emitEntry perStudyUID perAccession mwgroup groupsList files sid mwidx total with
    | .error e => .error e
    | .ok none => buildEntries perStudyUID perAccession mwgroup groupsList files rest total
    | .ok (some (e, total')) =>
      match buildEntries perStudyUID perAccession mwgroup groupsList files rest total' with
      | .error e' => .error e'
      | .ok entries => .ok (e :: entries)

/-- The grouping modes `group_dicoms_into_seqinfos` accepts (utils.py:332). -/
def allowedGroupings : List (Option String) := [some "studyUID", some "accession_number", none]

/-- `group_dicoms_into_seqinfos` (utils.py:304-558) up to the final
dictionary assembly: validates the grouping mode, applies the filename
filter, folds the clustering step over the files and emits the output
entries in sorted series-key order. -/
def applyFileFilter (file_filter : Option (String → Bool)) (files : List String) :
    List String :=
  match file_filter with
  | some ff => files.filter ff
  | none => files

/-- `group_dicoms_into_seqinfos` (utils.py:304-558) up to the final
dictionary assembly: validates the grouping mode, applies the filename
filter (utils.py:349-354), folds the clustering step over the files and
emits the output entries in sorted series-key order. -/
def group_dicoms_traced (read : String → Option DicomRecord) (files : List String)
    (file_filter : Option (String → Bool)) (dcmfilter : Option (DicomRecord → Bool))
    (grouping : Option String) : Except GroupErr (List TraceEntry) :=
  if grouping ∈ allowedGroupings then
    match foldSteps
        (groupStep (decide (grouping = some "studyUID"))
          (decide (grouping = some "accession_number")) dcmfilter read)
        initGState (applyFileFilter file_filter files) with
    | .error e => .error e
    | .ok st =>
      buildEntries (decide (grouping = some "studyUID"))
        (decide (grouping = some "accession_number")) st.mwgroup st.groups
        (applyFileFilter file_filter files)
        (sortItems (dictLastWins st.groups)) 0
  else .error (.valueError grouping)

/-- The value returned by `group_dicoms_into_seqinfos`: a flat ordered
dictionary `SeqInfo → files` when `grouping` is `None`, and an ordered
dictionary keyed by study UID or accession number otherwise. -/
inductive SeqInfoResult
  | flat (entries : List (SeqInfo × List String))
  | grouped (entries : List (Option String × List (SeqInfo × List String)))
deriving DecidableEq

/-- Ordered-dictionary assignment `d[info] = series_files`. -/
def innerAssign (l : List (SeqInfo × List String)) (info : SeqInfo)
    (fs : List String) : List (SeqInfo × List String) :=
  if l.any (fun e => decide (e.1 = info)) then
    l.map (fun e => if e.1 = info then (info, fs) else e)
  else l ++ [(info, fs)]

/-- Nested ordered-dictionary assignment `seqinfo[k][info] = series_files`
(utils.py:539-546). -/
def outerAssign (l : List (Option String × List (SeqInfo × List String)))
    (k : Option String) (info : SeqInfo) (fs : List String) :
    List (Option String × List (SeqInfo × List String)) :=
  if l.any (fun e => decide (e.1 = k)) then
    l.map (fun e => if e.1 = k then (e.1, innerAssign e.2 info fs) else e)
  else l ++ [(k, innerAssign [] info fs)]

/-- Assembly of the grouped (per study UID / per accession number) result. -/
def assembleGrouped (tr : List TraceEntry) :
    List (Option String × List (SeqInfo × List String)) :=
  tr.foldl (fun acc e => outerAssign acc e.outer e.info e.files) []

/-- Assembly of the returned dictionary from the emitted entries
(utils.py:539-548). -/
def resultOfTrace (grouping : Option String) (tr : List TraceEntry) : SeqInfoResult :=
  if grouping = none then
    .flat (tr.foldl (fun acc e => innerAssign acc e.info e.files) [])
  else .grouped (assembleGrouped tr)

/-- `group_dicoms_into_seqinfos` (utils.py:304-558). -/
def group_dicoms_into_seqinfos (read : String → Option DicomRecord)
    (files : List String) (file_filter : Option (String → Bool))
    (dcmfilter : Option (DicomRecord → Bool)) (grouping : Option String) :
    Except GroupErr SeqInfoResult :=
  (group_dicoms_traced read files file_filter dcmfilter grouping).map
    (resultOfTrace grouping)

/-! ## Witness fixtures: a tiny concrete world -/

/-- A well-formed image record, as a concrete input for witnesses. -/
def sampleRecord (n : Int) (p : String) (uid : String) (sig : String) : DicomRecord where
  seriesNumber := some n
  protocolName := some p
  studyInstanceUID := some uid
  sopClassRepval := "MR Image Storage"
  signature := sig
  imageShape := some [64, 64, 30]
  repetitionTime := none
  echoTime := none
  referringPhysicianName := some "Dr"
  imageType := some ["ORIGINAL"]
  seriesDescription := some "desc"
  accessionNumber := some "A1"
  patientID := some "P"
  studyDescription := some "SD"
  patientAge := some "030Y"
  patientSex := some "M"
  acquisitionDate := some "20200101"
  seqName1824 := none
  seqName19109c := none

/-- A concrete reader: three files in one study, two of them the same
series. -/
def sampleRead : String → Option DicomRecord := fun f =>
  if f = "f1" then some (sampleRecord 7 "BOLD" "U1" "sB")
  else if f = "f2" then some (sampleRecord 2 "T1w" "U1" "sT")
  else if f = "f3" then some (sampleRecord 2 "T1w" "U1" "sT")
  else none

/-- The trace the sample world produces under `grouping=None`. -/
def sampleTrace : List TraceEntry :=
  (group_dicoms_traced sampleRead ["f1", "f2", "f3"] none none none).toOption.getD []

/-! ## C4: invalid grouping mode -/

/-- C4: calling `group_dicoms_into_seqinfos` with a grouping value outside
{'studyUID', 'accession_number', None} raises `ValueError` before any input
file is opened or read and before any output is produced: the result is
that error for every file list, and it is independent of the file-reading
world, so no file is consulted and no state is modified. -/
theorem C4_invalid_grouping_valueerror (grouping : Option String)
    (h1 : grouping ≠ some "studyUID") (h2 : grouping ≠ some "accession_number")
    (h3 : grouping ≠ none) :
    ∀ (read : String → Option DicomRecord) (files : List String)
      (file_filter : Option (String → Bool)) (dcmfilter : Option (DicomRecord → Bool)),
      group_dicoms_into_seqinfos read files file_filter dcmfilter grouping =
        .error (.valueError grouping) ∧
      ∀ (read' : String → Option DicomRecord) (files' : List String)
        (ff' : Option (String → Bool)) (df' : Option (DicomRecord → Bool)),
        group_dicoms_into_seqinfos read files file_filter dcmfilter grouping =
          group_dicoms_into_seqinfos read' files' ff' df' grouping := by
  intro read files ff df
  have hmem : grouping ∉ allowedGroupings := by
    simp only [allowedGroupings, List.mem_cons, List.mem_singleton]
    push_neg
    exact ⟨h1, h2, h3, by simp⟩
  refine ⟨?_, ?_⟩
  · simp [group_dicoms_into_seqinfos, group_dicoms_traced, hmem, Except.map]
  · intro read' files' ff' df'
    simp [group_dicoms_into_seqinfos, group_dicoms_traced, hmem, Except.map]

/-- Witness for C4 at the concrete grouping value `'studyUid'` (a wrong
capitalisation) and the sample world. -/
theorem C4_invalid_grouping_valueerror_witness :
    group_dicoms_into_seqinfos sampleRead ["f1", "f2", "f3"] none none
      (some "studyUid") = .error (.valueError (some "studyUid")) :=
  (C4_invalid_grouping_valueerror (some "studyUid") (by decide) (by decide)
    (by decide) sampleRead ["f1", "f2", "f3"] none none).1

/-! ## C2: negative series keys never reach the output -/

theorem mkSeqInfo_series_id {mw : DicomRecord} {shape : List Nat}
    {seriesFiles : List String} {total : Nat} {sid2 : Int × String}
    {info : SeqInfo} {total' : Nat}
    (h : mkSeqInfo mw shape seriesFiles total sid2 = .ok (info, total')) :
    info.series_id = toString sid2.1 ++ "-" ++ sid2.2 := by
  unfold mkSeqInfo at h
  repeat' split at h
  all_goals cases h
  all_goals rfl

/-- A successful `emitEntry` keeps the item's key, which is non-negative,
and the `series_id` string renders it. -/
theorem emitEntry_spec {pS pA : Bool} {mwgroup : List DicomRecord}
    {gl : List (SKey × Nat)} {files : List String} {sid : SKey} {mwidx total : Nat}
    {e : TraceEntry} {total' : Nat}
    (h : emitEntry pS pA mwgroup gl files sid mwidx total = .ok (some (e, total'))) :
    e.key = sid ∧ 0 ≤ sid.1 ∧
      e.info.series_id = toString sid.1 ++ "-" ++ sid.2.1 := by
  unfold emitEntry at h
  split at h
  · cases h
  · rename_i hneg
    split at h
    · cases h
    · split at h
      · cases h
      · split at h
        · cases h
        · split at h
          · cases h
          · rename_i info2 total2 hmk
            cases h
            exact ⟨rfl, by omega, mkSeqInfo_series_id hmk⟩

/-- Every entry `buildEntries` emits has a non-negative series number, its
`series_id` string renders that key, and the emitted keys are a sublist of
the processed items' keys (so they keep the items' order). -/
theorem buildEntries_spec (pS pA : Bool) (mwgroup : List DicomRecord)
    (gl : List (SKey × Nat)) (files : List String) :
    ∀ (items : List (SKey × Nat)) (total : Nat) (tr : List TraceEntry),
      buildEntries pS pA mwgroup gl files items total = .ok tr →
      (tr.map TraceEntry.key).Sublist (items.map Prod.fst) ∧
      ∀ e ∈ tr, 0 ≤ e.key.1 ∧
        e.info.series_id = toString e.key.1 ++ "-" ++ e.key.2.1
  | [], _, tr, h => by
    cases h
    exact ⟨List.Sublist.refl _, by intro e he; cases he⟩
  | (sid, mwidx) :: rest, total, tr, h => by
    rw [buildEntries] at h
    split at h
    · cases h
    · rcases buildEntries_spec pS pA mwgroup gl files rest total tr h with ⟨hs, hmem⟩
      exact ⟨hs.trans (List.sublist_cons_self _ _), hmem⟩
    · rename_i e total' hemit
      split at h
      · cases h
      · rename_i entries' hrest
        cases h
        rcases emitEntry_spec hemit with ⟨hkey, hpos, hsid⟩
        rcases buildEntries_spec pS pA mwgroup gl files rest total' entries' hrest
          with ⟨hs, hmem⟩
        refine ⟨?_, ?_⟩
        · simp only [List.map_cons, hkey]
          exact List.Sublist.cons₂ sid hs
        · intro x hx
          rcases List.mem_cons.mp hx with hx | hx
          · subst hx
            rw [hkey]
            exact ⟨hpos, hsid⟩
          · exact hmem x hx

/-- C2: for every list of input files and every grouping mode, every
emitted output entry of `group_dicoms_into_seqinfos` has a series key with
a non-negative first component — records with a synthetic negative key
(undeterminable identity, `dcmfilter`-excluded, or non-image storage
class) never appear among the keys of the returned map — and every
`series_id` string in the result renders that non-negative series number.
The returned dictionary is exactly the assembly of those entries. -/
theorem C2_negative_keys_never_output (read : String → Option DicomRecord)
    (files : List String) (file_filter : Option (String → Bool))
    (dcmfilter : Option (DicomRecord → Bool)) (grouping : Option String)
    (tr : List TraceEntry)
    (h : group_dicoms_traced read files file_filter dcmfilter grouping = .ok tr) :
    (∀ e ∈ tr, 0 ≤ e.key.1 ∧
      e.info.series_id = toString e.key.1 ++ "-" ++ e.key.2.1) ∧
    group_dicoms_into_seqinfos read files file_filter dcmfilter grouping =
      .ok (resultOfTrace grouping tr) := by
  refine ⟨?_, ?_⟩
  · unfold group_dicoms_traced at h
    split at h
    · split at h
      · cases h
      · exact (buildEntries_spec _ _ _ _ _ _ _ _ h).2
    · cases h
  · unfold group_dicoms_into_seqinfos
    rw [h]
    rfl

/-- Witness for C2 on the sample world (grouping disabled). -/
theorem C2_negative_keys_never_output_witness :
    (∀ e ∈ sampleTrace, 0 ≤ e.key.1 ∧
      e.info.series_id = toString e.key.1 ++ "-" ++ e.key.2.1) ∧
    group_dicoms_into_seqinfos sampleRead ["f1", "f2", "f3"] none none none =
      .ok (resultOfTrace none sampleTrace) :=
  C2_negative_keys_never_output sampleRead ["f1", "f2", "f3"] none none none
    sampleTrace (by decide)

/-! ## C7: determinism and sorted output order -/

theorem dictAssign_keys_mem (acc : List (SKey × Nat)) (kv : SKey × Nat)
    (h : acc.any (fun e => decide (e.1 = kv.1)) = true) :
    (dictAssign acc kv).map Prod.fst = acc.map Prod.fst := by
  unfold dictAssign
  rw [if_pos h, List.map_map]
  apply List.map_congr_left
  intro e _
  by_cases he : e.1 = kv.1
  · simp [he]
  · simp [he]

theorem dictAssign_keys_new (acc : List (SKey × Nat)) (kv : SKey × Nat)
    (h : acc.any (fun e => decide (e.1 = kv.1)) = false) :
    (dictAssign acc kv).map Prod.fst = acc.map Prod.fst ++ [kv.1] := by
  unfold dictAssign
  rw [if_neg (by simp [h]), List.map_append]
  rfl

theorem dictLastWins_aux (l : List (SKey × Nat)) :
    ∀ acc : List (SKey × Nat), (acc.map Prod.fst).Nodup →
      ((l.foldl dictAssign acc).map Prod.fst).Nodup := by
  induction l with
  | nil => intro acc h; exact h
  | cons kv rest ih =>
    intro acc h
    rw [List.foldl_cons]
    apply ih
    rcases ha : acc.any (fun e => decide (e.1 = kv.1)) with _ | _
    · rw [dictAssign_keys_new acc kv ha]
      rw [List.nodup_append]
      refine ⟨h, List.nodup_singleton _, ?_⟩
      intro k hk
      simp only [List.any_eq_false, decide_eq_true_eq] at ha
      simp only [List.mem_singleton]
      intro hk1
      rcases List.mem_map.mp hk with ⟨e, he, hke⟩
      exact ha e he (by rw [← hke] at hk1; exact hk1)
    · rw [dictAssign_keys_mem acc kv ha]
      exact h

/-- The keys of `dict(zip(...))` are pairwise distinct. -/
theorem dictLastWins_nodup_keys (l : List (SKey × Nat)) :
    ((dictLastWins l).map Prod.fst).Nodup :=
  dictLastWins_aux l [] List.nodup_nil

/-- `sorted(...)` output is sorted under the Python tuple order on keys. -/
theorem sortItems_sorted (l : List (SKey × Nat)) :
    List.Pairwise (fun a b : SKey × Nat => keyLe a.1 b.1 = true) (sortItems l) := by
  have h1 : IsTotal (SKey × Nat) (fun a b => keyLe a.1 b.1 = true) :=
    ⟨fun a b => keyLe_total a.1 b.1⟩
  have h2 : IsTrans (SKey × Nat) (fun a b => keyLe a.1 b.1 = true) :=
    ⟨fun _ _ _ hab hbc => keyLe_trans hab hbc⟩
  exact List.sorted_insertionSort _ l

theorem sortItems_perm (l : List (SKey × Nat)) : (sortItems l).Perm l :=
  List.perm_insertionSort _ l

/-- C7: `group_dicoms_into_seqinfos` is deterministic — the same reading
world and file list produce the same emitted entries and the same
assembled dictionary — and the emission order of the output is the sorted
order of the tuple series keys (strictly increasing: pairwise `keyLe` with
pairwise-distinct keys), not the insertion order of the clusters. -/
theorem C7_deterministic_sorted_output (read : String → Option DicomRecord)
    (files : List String) (file_filter : Option (String → Bool))
    (dcmfilter : Option (DicomRecord → Bool)) (grouping : Option String)
    (tr : List TraceEntry)
    (h : group_dicoms_traced read files file_filter dcmfilter grouping = .ok tr) :
    group_dicoms_into_seqinfos read files file_filter dcmfilter grouping =
      .ok (resultOfTrace grouping tr) ∧
    (∀ (read' : String → Option DicomRecord) (files' : List String),
      read' = read → files' = files →
      group_dicoms_traced read' files' file_filter dcmfilter grouping = .ok tr) ∧
    List.Pairwise (fun a b : TraceEntry => keyLe a.key b.key = true) tr ∧
    (tr.map TraceEntry.key).Nodup := by
  refine ⟨?_, ?_, ?_⟩
  · unfold group_dicoms_into_seqinfos
    rw [h]
    rfl
  · intro read' files' hr hf
    rw [hr, hf]
    exact h
  · unfold group_dicoms_traced at h
    split at h
    · split at h
      · cases h
      · rename_i st hst
        have hspec := buildEntries_spec _ _ st.mwgroup st.groups _ _ _ _ h
        have hsub := hspec.1
        have hsorted : List.Pairwise (fun a b : SKey => keyLe a b = true)
            ((sortItems (dictLastWins st.groups)).map Prod.fst) :=
          (List.pairwise_map).mpr (sortItems_sorted (dictLastWins st.groups))
        have hnodup : ((sortItems (dictLastWins st.groups)).map Prod.fst).Nodup := by
          have hperm : ((sortItems (dictLastWins st.groups)).map Prod.fst).Perm
              ((dictLastWins st.groups).map Prod.fst) :=
            (sortItems_perm (dictLastWins st.groups)).map Prod.fst
          exact hperm.nodup_iff.mpr (dictLastWins_nodup_keys st.groups)
        refine ⟨?_, ?_⟩
        · exact (List.pairwise_map).mp (List.Pairwise.sublist hsub hsorted)
        · exact hnodup.sublist hsub
    · cases h

/-- Witness for C7 on the sample world. -/
theorem C7_deterministic_sorted_output_witness :
    group_dicoms_into_seqinfos sampleRead ["f1", "f2", "f3"] none none none =
      .ok (resultOfTrace none sampleTrace) ∧
    List.Pairwise (fun a b : TraceEntry => keyLe a.key b.key = true) sampleTrace ∧
    (sampleTrace.map TraceEntry.key).Nodup := by
  have h := C7_deterministic_sorted_output sampleRead ["f1", "f2", "f3"] none none
    none sampleTrace (by decide)
  exact ⟨h.1, h.2.2.1, h.2.2.2⟩

/-! ## C6: series-key normalisation to the representative's key -/

/-- Characterisation of the representative-matching loop: every `groups`
entry it appends for a record with a non-negative series key carries the
matched representative's `(SeriesNumber, ProtocolName)` (with the study UID
re-appended when grouping per study), and when no representative matches
nothing is appended and the record's own key survives unchanged. -/
theorem matchReps_spec (pS : Bool) (mw : DicomRecord) (uid : Option String) :
    ∀ (reps : List DicomRecord) (idx : Nat) (sid : SKey) (ingrp : Bool)
      (res : SKey × Bool × List (SKey × Nat)),
      0 ≤ sid.1 →
      (∀ rep ∈ reps, ∀ n, rep.seriesNumber = some n → 0 ≤ n) →
      matchReps pS mw uid reps idx sid ingrp = .ok res →
      (∀ kj ∈ res.2.2, ∃ j rep, kj.2 = idx + j ∧ reps.get? j = some rep ∧
        is_same_series mw rep = true ∧
        ∃ n p, rep.seriesNumber = some n ∧ rep.protocolName = some p ∧
          kj.1 = (n, p, if pS then some uid else none)) ∧
      ((∀ rep ∈ reps, is_same_series mw rep = false) → res = (sid, ingrp, []))
  | [], idx, sid, ingrp, res, _, _, h => by
    cases h
    exact ⟨fun kj hkj => absurd hkj (List.not_mem_nil kj), fun _ => rfl⟩
  | rep :: rest, idx, sid, ingrp, res, hsid, hreps, h => by
    rw [matchReps] at h
    split at h
    · rename_i hsame
      split at h
      · cases h
      · rename_i huid
        try rw [if_pos hsid] at h
        split at h
        · cases h
        · rename_i sid' hsid'
          split at h
          · cases h
          · rename_i sidF ingrpF appended hrec
            cases h
            split at hsid'
            · rename_i n p hn hp
              cases hsid'
              have hn0 : (0 : Int) ≤ n := hreps rep (List.mem_cons_self rep rest) n hn
              rcases matchReps_spec pS mw uid rest (idx + 1)
                  (n, p, if pS then some uid else none) true (sidF, ingrpF, appended)
                  hn0 (fun r hr => hreps r (List.mem_cons_of_mem rep hr)) hrec
                with ⟨hmem, _⟩
              refine ⟨?_, ?_⟩
              · intro kj hkj
                rcases List.mem_cons.mp hkj with hkj | hkj
                · subst hkj
                  exact ⟨0, rep, by omega, rfl, hsame, n, p, hn, hp, rfl⟩
                · rcases hmem kj hkj with ⟨j, r, hj, hr, hs, n', p', hn', hp', hk⟩
                  exact ⟨j + 1, r, by omega, hr, hs, n', p', hn', hp', hk⟩
              · intro hall
                exact absurd hsame (by simp [hall rep (List.mem_cons_self rep rest)])
            · cases hsid'
    · rename_i hsame
      rcases matchReps_spec pS mw uid rest (idx + 1) sid ingrp res hsid
          (fun r hr => hreps r (List.mem_cons_of_mem rep hr)) h
        with ⟨hmem, hnone⟩
      refine ⟨?_, ?_⟩
      · intro kj hkj
        rcases hmem kj hkj with ⟨j, r, hj, hr, hs, n', p', hn', hp', hk⟩
        exact ⟨j + 1, r, by omega, hr, hs, n', p', hn', hp', hk⟩
      · intro hall
        exact hnone (fun r hr => hall r (List.mem_cons_of_mem rep hr))

/-- A record matching no representative walks the whole loop without
appending anything and keeps its series key unchanged. -/
theorem matchReps_no_match (pS : Bool) (mw : DicomRecord) (uid : Option String) :
    ∀ (reps : List DicomRecord) (idx : Nat) (sid : SKey) (ingrp : Bool),
      (∀ rep ∈ reps, is_same_series mw rep = false) →
      matchReps pS mw uid reps idx sid ingrp = .ok (sid, ingrp, [])
  | [], _, _, _, _ => rfl
  | rep :: rest, idx, sid, ingrp, hall => by
    rw [matchReps]
    rw [if_neg (by simp [hall rep (List.mem_cons_self rep rest)])]
    exact matchReps_no_match pS mw uid rest (idx + 1) sid ingrp
      (fun r hr => hall r (List.mem_cons_of_mem rep hr))

/-- C6: during clustering, every `groups` entry appended for an incoming
record whose series key has a non-negative first component and which
satisfies the same-series predicate against an existing representative
carries that representative's `(SeriesNumber, ProtocolName)` pair, with the
study UID re-appended when grouping by study UID; and a record matching no
representative is appended to `mwgroup` as a new representative keeping its
own computed series key. -/
theorem C6_key_normalised_to_representative :
    (∀ (pS : Bool) (mw : DicomRecord) (uid : Option String)
       (reps : List DicomRecord) (sid : SKey) (res : SKey × Bool × List (SKey × Nat)),
       0 ≤ sid.1 →
       (∀ rep ∈ reps, ∀ n, rep.seriesNumber = some n → 0 ≤ n) →
       matchReps pS mw uid reps 0 sid false = .ok res →
       (∀ kj ∈ res.2.2, ∃ rep, reps.get? kj.2 = some rep ∧
         is_same_series mw rep = true ∧
         ∃ n p, rep.seriesNumber = some n ∧ rep.protocolName = some p ∧
           kj.1 = (n, p, if pS then some uid else none)) ∧
       ((∀ rep ∈ reps, is_same_series mw rep = false) → res = (sid, false, []))) ∧
    (∀ (pS pA : Bool) (df : Option (DicomRecord → Bool))
       (read : String → Option DicomRecord) (st : GState) (f : String)
       (mw : DicomRecord) (st' : GState),
       read f = some mw →
       (∀ rep ∈ st.mwgroup, is_same_series mw rep = false) →
       groupStep pS pA df read st f = .ok st' →
       ∃ sid0 uidF stU sid1 sid2,
         extractSeriesId pS pA st.studyUID mw = .ok (sid0, uidF, stU) ∧
         applyDcmfilter df mw sid0 = .ok sid1 ∧
         demoteNonImage mw sid1 = .ok sid2 ∧
         st'.mwgroup = st.mwgroup ++ [mw] ∧
         st'.groups = st.groups ++
           [((sid2.1, sid2.2, if pS then some uidF else none), st.mwgroup.length)]) := by
  constructor
  · intro pS mw uid reps sid res hsid hreps h
    rcases matchReps_spec pS mw uid reps 0 sid false res hsid hreps h with ⟨hmem, hnone⟩
    refine ⟨?_, hnone⟩
    intro kj hkj
    rcases hmem kj hkj with ⟨j, rep, hj, hr, hs, n, p, hn, hp, hk⟩
    have hj' : kj.2 = j := by omega
    rw [hj']
    exact ⟨rep, hr, hs, n, p, hn, hp, hk⟩
  · intro pS pA df read st f mw st' hread hall h
    unfold groupStep at h
    simp only [hread] at h
    rcases hE : extractSeriesId pS pA st.studyUID mw with e | ⟨sid0, uidF, stU⟩
    · rw [hE] at h
      cases h
    · rw [hE] at h
      simp only at h
      rcases hF : applyDcmfilter df mw sid0 with e | sid1
      · rw [hF] at h
        cases h
      · rw [hF] at h
        simp only at h
        rcases hD : demoteNonImage mw sid1 with e | sid2
        · rw [hD] at h
          cases h
        · rw [hD] at h
          simp only at h
          rw [matchReps_no_match pS mw uidF st.mwgroup 0
              (sid2.1, sid2.2, if pS then some uidF else none) false hall] at h
          simp only [Bool.false_eq_true, if_neg] at h
          cases h
          exact ⟨sid0, uidF, stU, sid1, sid2, rfl, hF, hD, rfl, by simp⟩

/-- Witness for C6: a record that matches no representative keeps its key
(the no-match clause of the theorem applied at a concrete input). -/
theorem C6_key_normalised_to_representative_witness :
    ((matchReps false (sampleRecord 2 "T1w" "U1" "sT") (some "U1")
        [sampleRecord 7 "BOLD" "U1" "sB"] 0 ((2 : Int), "T1w", none)
        false).toOption.getD (((0 : Int), "", none), false, [])) =
      (((2 : Int), "T1w", none), false, []) := by
  have h := (C6_key_normalised_to_representative.1 false
    (sampleRecord 2 "T1w" "U1" "sT") (some "U1") [sampleRecord 7 "BOLD" "U1" "sB"]
    ((2 : Int), "T1w", none)
    ((matchReps false (sampleRecord 2 "T1w" "U1" "sT") (some "U1")
        [sampleRecord 7 "BOLD" "U1" "sB"] 0 ((2 : Int), "T1w", none)
        false).toOption.getD (((0 : Int), "", none), false, []))
    (by decide) (by decide) (by decide)).2 (by decide)
  rw [h]

/-! ## C9: the single-study assertion under `grouping=None` -/

theorem exceptMap_error {α β ε : Type} {f : α → β} {x : Except ε α} {e : ε} :
    x.map f = .error e ↔ x = .error e := by
  cases x <;> simp [Except.map]

/-- Errors of the representative-matching loop are only the same-series
UID assertion or an `AttributeError`. -/
theorem matchReps_error (pS : Bool) (mw : DicomRecord) (uid : Option String) :
    ∀ (reps : List DicomRecord) (idx : Nat) (sid : SKey) (ingrp : Bool)
      (e : GroupErr),
      matchReps pS mw uid reps idx sid ingrp = .error e →
      e = .sameSeriesUIDAssert ∨ e = .attrError
  | [], _, _, _, _, h => by cases h
  | rep :: rest, idx, sid, ingrp, e, h => by
    rw [matchReps] at h
    split at h
    · split at h
      · cases h
        exact Or.inl rfl
      · split at h
        · rename_i e2 heq
          cases h
          split at heq
          · split at heq
            · cases heq
            · cases heq
              exact Or.inr rfl
          · cases heq
        · rename_i sid' heq
          split at h
          · rename_i hrec
            cases h
            exact matchReps_error pS mw uid rest (idx + 1) sid' true e hrec
          · cases h
    · exact matchReps_error pS mw uid rest (idx + 1) sid ingrp e h

theorem applyDcmfilter_error {df : Option (DicomRecord → Bool)} {mw : DicomRecord}
    {sid0 : Int × String} {e : GroupErr}
    (h : applyDcmfilter df mw sid0 = .error e) : e = .attrError := by
  unfold applyDcmfilter at h
  repeat' split at h
  all_goals cases h
  all_goals rfl

theorem demoteNonImage_error {mw : DicomRecord} {sid1 : Int × String} {e : GroupErr}
    (h : demoteNonImage mw sid1 = .error e) : e = .attrError := by
  unfold demoteNonImage at h
  repeat' split at h
  all_goals cases h
  all_goals rfl

theorem collectFiles_error :
    ∀ (gl : List (SKey × Nat)) (files : List String) (sid : SKey) (i : Nat)
      (e : GroupErr),
      collectFiles gl files sid i = .error e → e = .indexError
  | [], _, _, _, _, h => by cases h
  | (s, m) :: rest, files, sid, i, e, h => by
    rw [collectFiles] at h
    split at h
    · split at h
      · split at h
        · cases h
        · rename_i hrec
          cases h
          exact collectFiles_error rest files sid (i + 1) e hrec
      · cases h
        rfl
    · exact collectFiles_error rest files sid (i + 1) e h

theorem mkSeqInfo_error {mw : DicomRecord} {shape : List Nat}
    {seriesFiles : List String} {total : Nat} {sid2 : Int × String} {e : GroupErr}
    (h : mkSeqInfo mw shape seriesFiles total sid2 = .error e) :
    e = .indexError ∨ e = .attrError := by
  unfold mkSeqInfo at h
  repeat' split at h
  all_goals cases h
  all_goals simp

theorem emitEntry_error {pS pA : Bool} {mwgroup : List DicomRecord}
    {gl : List (SKey × Nat)} {files : List String} {sid : SKey}
    {mwidx total : Nat} {e : GroupErr}
    (h : emitEntry pS pA mwgroup gl files sid mwidx total = .error e) :
    e = .indexError ∨ e = .attrError := by
  unfold emitEntry at h
  split at h
  · cases h
  · split at h
    · cases h
      exact Or.inl rfl
    · split at h
      · cases h
      · split at h
        · rename_i heq
          cases h
          exact Or.inl (collectFiles_error _ _ _ _ _ heq)
        · split at h
          · rename_i heq
            cases h
            exact mkSeqInfo_error heq
          · cases h

theorem buildEntries_error (pS pA : Bool) (mwgroup : List DicomRecord)
    (gl : List (SKey × Nat)) (files : List String) :
    ∀ (items : List (SKey × Nat)) (total : Nat) (e : GroupErr),
      buildEntries pS pA mwgroup gl files items total = .error e →
      e = .indexError ∨ e = .attrError
  | [], _, _, h => by cases h
  | (sid, mwidx) :: rest, total, e, h => by
    rw [buildEntries] at h
    split at h
    · rename_i heq
      cases h
      exact emitEntry_error heq
    · exact buildEntries_error pS pA mwgroup gl files rest total e h
    · split at h
      · rename_i hrec
        cases h
        exact buildEntries_error pS pA mwgroup gl files rest _ e hrec
      · cases h

/-- Under `grouping=None` the try-block's series-id extraction never fails
the single-study assertion when every determinable record carries the
common study UID `u`, and it keeps the tracking variable in
`{None, Some u}`. -/
theorem extractSeriesId_single_study (u : String) (r : DicomRecord)
    (stU0 : Option String)
    (hc : r.seriesNumber ≠ none → r.protocolName ≠ none →
      r.studyInstanceUID ≠ none → r.studyInstanceUID = some u)
    (hinv : stU0 = none ∨ stU0 = some u) :
    (extractSeriesId false false stU0 r ≠ .error .singleStudyAssert) ∧
    (∀ sid0 uidF stU, extractSeriesId false false stU0 r = .ok (sid0, uidF, stU) →
      stU = none ∨ stU = some u) := by
  rcases hn : r.seriesNumber with _ | n <;>
    rcases hp : r.protocolName with _ | p <;>
      rcases hu : r.studyInstanceUID with _ | uid
  case some.some.some =>
    have huid : uid = u := by
      have := hc (by simp [hn]) (by simp [hp]) (by simp [hu])
      rw [hu] at this
      exact Option.some.inj this
    subst huid
    rcases hinv with hinv | hinv
    · subst hinv
      have hval : extractSeriesId false false none r =
          .ok ((n, p), some uid, some uid) := by
        unfold extractSeriesId
        rw [hn, hp, hu]
        exact rfl
      refine ⟨by rw [hval]; simp, ?_⟩
      intro sid0 uidF stU h
      rw [hval] at h
      injection h with h
      rw [show stU = ((sid0, uidF, stU) : (Int × String) × Option String × Option String).2.2
        from rfl, ← h]
      exact Or.inr rfl
    · subst hinv
      have hval : extractSeriesId false false (some uid) r =
          .ok ((n, p), some uid, some uid) := by
        unfold extractSeriesId
        rw [hn, hp, hu]
        simp
      refine ⟨by rw [hval]; simp, ?_⟩
      intro sid0 uidF stU h
      rw [hval] at h
      injection h with h
      rw [show stU = ((sid0, uidF, stU) : (Int × String) × Option String × Option String).2.2
        from rfl, ← h]
      exact Or.inr rfl
  all_goals (
    have hval : extractSeriesId false false stU0 r =
        .ok ((-1, "none"), none, stU0) := by
      unfold extractSeriesId
      rw [hn, hp, hu]
    refine ⟨by rw [hval]; simp, ?_⟩
    intro sid0 uidF stU h
    rw [hval] at h
    injection h with h
    rw [show stU = ((sid0, uidF, stU) : (Int × String) × Option String × Option String).2.2
      from rfl, ← h]
    exact hinv)

/-- If one clustering step under `grouping=None` raises the single-study
assertion, it came from the try-block's series-id extraction. -/
theorem groupStep_ssa (df : Option (DicomRecord → Bool))
    (read : String → Option DicomRecord) (st : GState) (f : String)
    (r : DicomRecord) (hr : read f = some r)
    (h : groupStep false false df read st f = .error .singleStudyAssert) :
    extractSeriesId false false st.studyUID r = .error .singleStudyAssert := by
  unfold groupStep at h
  rw [hr] at h
  dsimp only at h
  rcases hE : extractSeriesId false false st.studyUID r with e | ⟨sid0, uidF, stU⟩
  · rw [hE] at h
    dsimp only at h
    cases h
    rfl
  · rw [hE] at h
    dsimp only at h
    exfalso
    rcases hF : applyDcmfilter df r sid0 with e | sid1
    · rw [hF] at h
      dsimp only at h
      cases h
      cases applyDcmfilter_error hF
    · rw [hF] at h
      dsimp only at h
      rcases hD : demoteNonImage r sid1 with e | sid2
      · rw [hD] at h
        dsimp only at h
        cases h
        cases demoteNonImage_error hD
      · rw [hD] at h
        dsimp only at h
        rw [show (if false = true then some uidF else none : Option (Option String)) =
          none from rfl] at h
        rcases hM : matchReps false r uidF st.mwgroup 0
            (sid2.1, sid2.2, none) false with e | ⟨keyF, ingrp, appended⟩
        · rw [hM] at h
          dsimp only at h
          cases h
          rcases matchReps_error false r uidF st.mwgroup 0
            (sid2.1, sid2.2, none) false _ hM with h1 | h1 <;> cases h1
        · rw [hM] at h
          dsimp only at h
          rcases ingrp with _ | _ <;> simp at h

/-- A successful clustering step under `grouping=None` stores exactly the
tracking value the series-id extraction produced. -/
theorem groupStep_studyUID (df : Option (DicomRecord → Bool))
    (read : String → Option DicomRecord) (st : GState) (f : String)
    (r : DicomRecord) (hr : read f = some r) :
    ∀ st', groupStep false false df read st f = .ok st' →
      ∃ sid0 uidF, extractSeriesId false false st.studyUID r =
        .ok (sid0, uidF, st'.studyUID) := by
  intro st' h
  unfold groupStep at h
  rw [hr] at h
  dsimp only at h
  rcases hE : extractSeriesId false false st.studyUID r with e | ⟨sid0, uidF, stU⟩
  · rw [hE] at h
    dsimp only at h
    cases h
  · rw [hE] at h
    dsimp only at h
    refine ⟨sid0, uidF, ?_⟩
    rcases hF : applyDcmfilter df r sid0 with e | sid1
    · rw [hF] at h
      dsimp only at h
      cases h
    · rw [hF] at h
      dsimp only at h
      rcases hD : demoteNonImage r sid1 with e | sid2
      · rw [hD] at h
        dsimp only at h
        cases h
      · rw [hD] at h
        dsimp only at h
        rw [show (if false = true then some uidF else none : Option (Option String)) =
          none from rfl] at h
        rcases hM : matchReps false r uidF st.mwgroup 0
            (sid2.1, sid2.2, none) false with e | ⟨keyF, ingrp, appended⟩
        · rw [hM] at h
          dsimp only at h
          cases h
        · rw [hM] at h
          dsimp only at h
          rcases ingrp with _ | _
          · simp only [Bool.false_eq_true, if_false] at h
            cases h
            rfl
          · simp only [if_true] at h
            cases h
            rfl

/-- The whole clustering fold under `grouping=None` never fails the
single-study assertion when all determinable records share `u`. -/
theorem foldSteps_single_study (df : Option (DicomRecord → Bool))
    (read : String → Option DicomRecord) (u : String) :
    ∀ (files : List String) (st : GState),
      (∀ f ∈ files, ∀ r, read f = some r → r.seriesNumber ≠ none →
        r.protocolName ≠ none → r.studyInstanceUID ≠ none →
        r.studyInstanceUID = some u) →
      (st.studyUID = none ∨ st.studyUID = some u) →
      foldSteps (groupStep false false df read) st files ≠
        .error .singleStudyAssert
  | [], st, _, _ => by intro h; cases h
  | f :: rest, st, hc, hinv => by
    rw [foldSteps]
    rcases hG : groupStep false false df read st f with e | st'
    · intro hbad
      have hbad' : (Except.error e : Except GroupErr GState) =
          Except.error GroupErr.singleStudyAssert := hbad
      cases hbad'
      rcases hr : read f with _ | r
      · unfold groupStep at hG
        rw [hr] at hG
        cases hG
      · exact (extractSeriesId_single_study u r st.studyUID
          (hc f (List.mem_cons_self f rest) r hr) hinv).1
          (groupStep_ssa df read st f r hr hG)
    · rcases hr : read f with _ | r
      · exfalso
        unfold groupStep at hG
        rw [hr] at hG
        cases hG
      · rcases groupStep_studyUID df read st f r hr st' hG with ⟨sid0, uidF, hE⟩
        exact foldSteps_single_study df read u rest st'
          (fun g hg => hc g (List.mem_cons_of_mem f hg))
          ((extractSeriesId_single_study u r st.studyUID
            (hc f (List.mem_cons_self f rest) r hr) hinv).2 sid0 uidF
            st'.studyUID hE)

theorem foldSteps_cons (step : GState → String → Except GroupErr GState)
    (st : GState) (f : String) (rest : List String) :
    foldSteps step st (f :: rest) =
      match step st f with
      | .ok st' => foldSteps step st' rest
      | .error e => .error e := rfl

/-- `foldSteps` over an appended list runs the two pieces in sequence. -/
theorem foldSteps_append (step : GState → String → Except GroupErr GState) :
    ∀ (l1 l2 : List String) (st : GState),
      foldSteps step st (l1 ++ l2) =
        match foldSteps step st l1 with
        | .ok st' => foldSteps step st' l2
        | .error e => .error e
  | [], l2, st => rfl
  | f :: rest, l2, st => by
    rw [List.cons_append, foldSteps, foldSteps]
    rcases step st f with e | st'
    · rfl
    · exact foldSteps_append step rest l2 st'

/-- A determinable record from a second, distinct study UID makes the
clustering step raise the single-study assertion (grouping=None). -/
theorem groupStep_second_study (df : Option (DicomRecord → Bool))
    (read : String → Option DicomRecord) (st : GState) (f : String)
    (r : DicomRecord) (u' : String)
    (hr : read f = some r) (hn : r.seriesNumber ≠ none)
    (hp : r.protocolName ≠ none) (hu : r.studyInstanceUID = some u')
    (h1 : st.studyUID ≠ none) (h2 : st.studyUID ≠ some u') :
    groupStep false false df read st f = .error .singleStudyAssert := by
  rcases Option.ne_none_iff_exists'.mp hn with ⟨n, hn'⟩
  rcases Option.ne_none_iff_exists'.mp hp with ⟨p, hp'⟩
  rcases Option.ne_none_iff_exists'.mp h1 with ⟨v, hv⟩
  have hvu : v ≠ u' := fun hh => h2 (hh ▸ hv)
  unfold groupStep
  rw [hr]
  dsimp only
  have hE : extractSeriesId false false st.studyUID r =
      .error .singleStudyAssert := by
    unfold extractSeriesId
    rw [hn', hp', hu, hv]
    simp [hvu]
  rw [hE]

/-- C9: with `grouping=None`, when every record with a determinable series
identity carries one common `StudyInstanceUID`, the internal single-study
assertion never fires; and a determinable record carrying a study UID
different from the already-seeded one makes `group_dicoms_into_seqinfos`
raise `AssertionError`, aborting the entire grouping pass rather than
skipping only that record. -/
theorem C9_single_study_assertion :
    (∀ (read : String → Option DicomRecord) (files : List String)
       (ff : Option (String → Bool)) (df : Option (DicomRecord → Bool)) (u : String),
       (∀ f ∈ files, ∀ r, read f = some r → r.seriesNumber ≠ none →
         r.protocolName ≠ none → r.studyInstanceUID ≠ none →
         r.studyInstanceUID = some u) →
       group_dicoms_into_seqinfos read files ff df none ≠
         .error .singleStudyAssert) ∧
    (∀ (read : String → Option DicomRecord) (pre : List String) (f : String)
       (post : List String) (df : Option (DicomRecord → Bool)) (st : GState)
       (r : DicomRecord) (u' : String),
       foldSteps (groupStep false false df read) initGState pre = .ok st →
       read f = some r → r.seriesNumber ≠ none → r.protocolName ≠ none →
       r.studyInstanceUID = some u' → st.studyUID ≠ none → st.studyUID ≠ some u' →
       group_dicoms_into_seqinfos read (pre ++ f :: post) none df none =
         .error .singleStudyAssert) := by
  constructor
  · intro read files ff df u hc h
    rw [group_dicoms_into_seqinfos, exceptMap_error] at h
    rw [group_dicoms_traced] at h
    rw [if_pos (by simp [allowedGroupings])] at h
    have hc' : ∀ f ∈ applyFileFilter ff files, ∀ r, read f = some r →
        r.seriesNumber ≠ none → r.protocolName ≠ none →
        r.studyInstanceUID ≠ none → r.studyInstanceUID = some u := by
      intro f hf
      apply hc
      unfold applyFileFilter at hf
      rcases ff with _ | fltr
      · exact hf
      · exact List.mem_of_mem_filter hf
    split at h
    · rename_i e hfold
      have hne := foldSteps_single_study df read u (applyFileFilter ff files)
        initGState hc' (Or.inl rfl)
      cases h
      exact hne (by simpa using hfold)
    · rcases buildEntries_error _ _ _ _ _ _ _ _ h with h1 | h1 <;> cases h1
  · intro read pre f post df st r u' hfold hr hn hp hu h1 h2
    rw [group_dicoms_into_seqinfos]
    apply exceptMap_error.mpr
    rw [group_dicoms_traced]
    rw [if_pos (by simp [allowedGroupings])]
    rw [show (decide ((none : Option String) = some "studyUID")) = false from rfl,
        show (decide ((none : Option String) = some "accession_number")) = false from rfl]
    rw [show applyFileFilter none (pre ++ f :: post) = pre ++ f :: post from rfl]
    rw [foldSteps_append]
    rw [hfold]
    dsimp only
    rw [foldSteps_cons, groupStep_second_study df read st f r u' hr hn hp hu h1 h2]

/-- A reader with records from two distinct studies. -/
def sampleRead2 : String → Option DicomRecord := fun f =>
  if f = "f1" then some (sampleRecord 2 "T1w" "U1" "sT")
  else if f = "f2" then some (sampleRecord 3 "T2w" "U2" "sU")
  else none

/-- The clustering state after processing the first file of the two-study
world. -/
def sampleState1 : GState :=
  (foldSteps (groupStep false false none sampleRead2) initGState
    ["f1"]).toOption.getD initGState

/-- Witness for C9: the single-study world passes, the two-study world
aborts with the assertion. -/
theorem C9_single_study_assertion_witness :
    (group_dicoms_into_seqinfos sampleRead ["f1", "f2", "f3"] none none none ≠
      .error .singleStudyAssert) ∧
    group_dicoms_into_seqinfos sampleRead2 (["f1"] ++ "f2" :: []) none none none =
      .error .singleStudyAssert := by
  constructor
  · apply C9_single_study_assertion.1 sampleRead ["f1", "f2", "f3"] none none "U1"
    intro f hf r hr _ _ _
    fin_cases hf <;>
      (simp [sampleRead] at hr
       subst hr
       rfl)
  · exact C9_single_study_assertion.2 sampleRead2 ["f1"] "f2" [] none sampleState1
      (sampleRecord 3 "T2w" "U2" "sU") "U2" (by decide) (by decide) (by decide)
      (by decide) (by decide) (by decide) (by decide)

/-! ## Study-session resolution (utils.py:1377-1535)

`get_extracted_dicoms` groups a file list into sessions, treating each
tarball as one session; `get_study_sessions` resolves study sessions
either from a subject-directory template or by grouping scanned files and
calling the heuristic's `infotoids`. -/

/-- A Python session label: the code mixes the integers produced by
tarball enumeration with caller-supplied session strings. -/
inductive SessLabel
  | num (n : Nat)
  | str (s : String)
deriving DecidableEq

/-- The `StudySessionInfo` namedtuple (utils.py:115-127). -/
structure StudySessionInfo where
  locator : Option String
  session : Option SessLabel
  subject : Option String
deriving DecidableEq

/-- A value of the `study_sessions` dictionary: a raw file list in the
template-driven branch, a per-study `SeqInfo → files` dictionary in the
scan-driven branch. -/
inductive SSValue
  | files (fs : List String)
  | seqs (entries : List (SeqInfo × List String))
deriving DecidableEq

/-- The tarball world: `tarContent f = some names` when `f` is a tarball
whose regular-file member names are `names`, `none` when
`tarfile.is_tarfile` is false. -/
structure TarWorld where
  tarContent : String → Option (List String)

/-- Python's `sorted` on a list of strings. -/
def sortStrings (l : List String) : List String :=
  List.insertionSort (fun a b => strLe a b = true) l

/-- The `sessions` defaultdict of `get_extracted_dicoms`, insertion-ordered. -/
abbrev Sessions := List (Option Nat × List String)

/-- `sessions[None].append(t)` on a `defaultdict(list)`. -/
def dAppendOne (l : Sessions) (t : String) : Sessions :=
  if l.any (fun e => decide (e.1 = (none : Option Nat))) then
    l.map (fun e => if e.1 = none then (e.1, e.2 ++ [t]) else e)
  else l ++ [((none : Option Nat), [t])]

/-- `sessions[session] = files` (plain dict assignment). -/
def dSet (l : Sessions) (k : Option Nat) (fs : List String) : Sessions :=
  if l.any (fun e => decide (e.1 = k)) then
    l.map (fun e => if e.1 = k then (e.1, fs) else e)
  else l ++ [(k, fs)]

/-- The loop body of `get_extracted_dicoms` (utils.py:1401-1420): a
non-tarball goes to the `None` session; a tarball becomes session number
`session` holding its member names joined under the scratch directory, and
the counter advances. -/
def gedStep (w : TarWorld) (tmpdir : String) (acc : Sessions × Nat)
    (t : String) : Sessions × Nat :=
  match w.tarContent t with
  | none => (dAppendOne acc.1 t, acc.2)
  | some names =>
    (dSet acc.1 (some acc.2) (names.map (fun nm => pjoin tmpdir nm)), acc.2 + 1)

/-- `sessions[None] += sessions.pop(0)` (utils.py:1422-1426): the
defaultdict lookup creates an empty `None` entry at the end when missing,
the single tarball session 0 is removed, and its files are appended to the
`None` session. -/
def collapseSingle (sessions : Sessions) : Sessions :=
  let s1 := if sessions.any (fun e => decide (e.1 = (none : Option Nat))) then sessions
    else sessions ++ [((none : Option Nat), ([] : List String))]
  let v := ((s1.find? (fun e => decide (e.1 = some 0))).map Prod.snd).getD []
  let s2 := s1.filter (fun e => decide (¬ e.1 = some 0))
  s2.map (fun e => if e.1 = none then (e.1, e.2 ++ v) else e)

/-- `get_extracted_dicoms` (utils.py:1377-1428): sort the input files,
assign each tarball a numbered session (non-tarballs go to `None`), and
collapse a single tarball session into `None`. -/
def get_extracted_dicoms (w : TarWorld) (tmpdir : String) (fl : List String) :
    Sessions :=
  match (sortStrings fl).foldl (gedStep w tmpdir) ([], 0) with
  | (sessions, session) =>
    if session = 1 then collapseSingle sessions else sessions

/-! ## The conversion-plan data model (needed by the heuristic contract) -/

/-- A Python value used as a plan item: an integer index or a string. -/
inductive PyKey
  | i (n : Int)
  | s (v : String)
deriving DecidableEq

/-- Python `str()` of such a value (utils.py:611). -/
def pyStr : PyKey → String
  | .i n => toString n
  | .s v => v

/-- One item in a plan's item group: a bare value or a dict carrying the
value under `'item'` plus extra template parameters (utils.py:588-591). -/
inductive ItemEntry
  | plain (k : PyKey)
  | withParams (k : PyKey) (params : List (String × PyKey))
deriving DecidableEq

/-- A plan entry's items element: the code accepts a scalar or a list
(utils.py:584-585). -/
inductive InfoItem
  | one (e : ItemEntry)
  | many (es : List ItemEntry)
deriving DecidableEq

/-- A conversion plan: `(template, outtypes) → items`, as produced by a
heuristic's `infotodict`. -/
abbrev Info := List ((String × List String) × List InfoItem)

/-- The result of a heuristic's `infotoids` (utils.py:1518): a dict with
optional `locator` / `session` / `subject` keys.  The outer `Option` of
`session` is key absence; the inner one is the value (possibly `None`). -/
structure IdsDict where
  locator : Option String
  session : Option (Option String)
  subject : Option String

/-- The duck-typed heuristic module contract used by `convert_dicoms` and
`get_study_sessions`. -/
structure Heuristic where
  filename : String
  filter_files : Option (String → Bool)
  filter_dicom : Option (DicomRecord → Bool)
  infotodict : List SeqInfo → Info
  infotoids : Option (List SeqInfo → String → IdsDict)

/-! ## `get_study_sessions` (utils.py:1441-1535) -/

/-- Exceptions of `get_study_sessions`. -/
inductive SSErr
  | valueError (msg : String)
  | assertionError
  | notImplementedError
  | groupError (e : GroupErr)
  /-- the scan branch iterates the grouped dictionary; a flat result makes
  `seqinfo.keys()` blow up on a list (`AttributeError`). -/
  | scanNonGrouped
deriving DecidableEq

/-- Python's `x or session` over the looked-up session value
(utils.py:1525): falsy (`None` or `''`) falls back. -/
def pyOrSession (x : Option String) (y : Option String) : Option String :=
  if x = none ∨ x = some "" then y else x

/-- The `StudySessionInfo` built in the scan branch (utils.py:1523-1526). -/
def mkStudySessionInfo (ids : IdsDict) (session : Option String) :
    StudySessionInfo :=
  { locator := ids.locator
    session := (pyOrSession (ids.session.getD session) session).map SessLabel.str
    subject := ids.subject }

/-- The `StudySessionInfo` key a study cluster resolves to in the scan
branch: `infotoids` is called on the cluster's `seqinfo.keys()`
(utils.py:1518-1526). -/
def ssKeyOf (infotoids : List SeqInfo → String → IdsDict) (outdir : String)
    (session : Option String)
    (entry : Option String × List (SeqInfo × List String)) : StudySessionInfo :=
  mkStudySessionInfo (infotoids (entry.2.map Prod.fst) outdir) session

/-- The collision-checked registration step of the scan branch
(utils.py:1527-1533): an already-present `StudySessionInfo` key is warned
about and skipped (first-writer-wins), otherwise the cluster's `seqinfo`
dictionary is stored under the key. -/
def registerStep (infotoids : List SeqInfo → String → IdsDict) (outdir : String)
    (session : Option String)
    (acc : List (StudySessionInfo × SSValue) × List StudySessionInfo)
    (entry : Option String × List (SeqInfo × List String)) :
    List (StudySessionInfo × SSValue) × List StudySessionInfo :=
  if acc.1.any (fun e => decide (e.1 = ssKeyOf infotoids outdir session entry)) then
    (acc.1, acc.2 ++ [ssKeyOf infotoids outdir session entry])
  else (acc.1 ++ [(ssKeyOf infotoids outdir session entry, .seqs entry.2)], acc.2)

/-- The scan branch's registration loop over the grouped study clusters
(utils.py:1511-1533), also collecting the warned-about collision keys. -/
def registerStudySessions (infotoids : List SeqInfo → String → IdsDict)
    (outdir : String) (session : Option String)
    (entries : List (Option String × List (SeqInfo × List String))) :
    List (StudySessionInfo × SSValue) × List StudySessionInfo :=
  entries.foldl (registerStep infotoids outdir session) ([], [])

/-- Session component of a template-branch key (utils.py:1478):
`session_ if session_ is not None else session`. -/
def sessKeyOf (s_ : Option Nat) (session : Option String) : Option SessLabel :=
  match s_ with
  | some n => some (.num n)
  | none => session.map .str

/-- `study_sessions[key] = files_` — plain dict assignment of the template
branch (utils.py:1475-1480). -/
def dSetSS (l : List (StudySessionInfo × SSValue)) (k : StudySessionInfo)
    (v : SSValue) : List (StudySessionInfo × SSValue) :=
  if l.any (fun e => decide (e.1 = k)) then
    l.map (fun e => if e.1 = k then (e.1, v) else e)
  else l ++ [(k, v)]

/-- The file-collection pipeline of the scan branch (utils.py:1485-1496):
expand directories (sorted `find_files`), run the tarball extraction, and
concatenate all resulting session groups. -/
def scanFiles (findFilesIn : String → List String) (isDir : String → Bool)
    (w : TarWorld) (tmpdir : String) (files_opt : List String) : List String :=
  (get_extracted_dicoms w tmpdir (files_opt.flatMap (fun f =>
    if isDir f then sortStrings (findFilesIn f) else [f]))).flatMap Prod.snd

/-- `get_study_sessions` (utils.py:1441-1535).  External collaborators:
`abspath` (os.path.abspath), `fmtTemplate` (`str.format` with the subject
and session), `glob`, `findFilesIn` (sorted `find_files` output is
`sortStrings (findFilesIn f)`), `isDir`, the tarball world and the DICOM
reader. -/
def get_study_sessions (abspath : String → String)
    (fmtTemplate : String → String → Option String → String)
    (glob : String → List String)
    (findFilesIn : String → List String) (isDir : String → Bool)
    (w : TarWorld) (tmpdir : String) (read : String → Option DicomRecord)
    (dicom_dir_template : Option String) (files_opt : List String)
    (heuristic : Heuristic) (outdir : String) (session : Option String)
    (sids : List String) (grouping : Option String) :
    Except SSErr (List (StudySessionInfo × SSValue)) :=
  match dicom_dir_template with
  | some tpl0 =>
    -- template-driven branch (utils.py:1454-1480)
    if files_opt ≠ [] then .error .assertionError
    else if sids = [] then .error .assertionError
    else if ¬ strHasSub (abspath tpl0) "{subject}" then
      .error (.valueError (abspath tpl0))
    else
      .ok (sids.foldl (fun acc sid =>
        (get_extracted_dicoms w tmpdir
            (sortStrings (glob (fmtTemplate (abspath tpl0) sid session)))).foldl
          (fun acc2 sf =>
            dSetSS acc2
              { locator := none
                session := sessKeyOf sf.1 session
                subject := some sid }
              (.files sf.2)) acc) [])
  | none =>
    -- scan-driven branch (utils.py:1481-1533)
    if files_opt = [] then .error .assertionError
    else if sids ≠ [] then .error .assertionError
    else
      match group_dicoms_into_seqinfos read
          (scanFiles findFilesIn isDir w tmpdir files_opt)
          heuristic.filter_files heuristic.filter_dicom grouping with
      | .error e => .error (.groupError e)
      | .ok res =>
        match heuristic.infotoids with
        | none => .error .notImplementedError
        | some itds =>
          match res with
          | .flat _ => .error .scanNonGrouped
          | .grouped entries =>
            .ok (registerStudySessions itds outdir session entries).1

/-! ### Tarball session enumeration (claim C5) -/

theorem mem_enumFrom_le {α : Type} :
    ∀ (l : List α) (n : Nat) (p : Nat × α), p ∈ List.enumFrom n l → n ≤ p.1 := by
  intro l
  induction l with
  | nil => intro n p hp; cases hp
  | cons x xs ih =>
    intro n p hp
    cases hp with
    | head => exact Nat.le_refl n
    | tail _ hp => exact Nat.le_of_succ_le (ih (n + 1) p hp)

theorem enumFrom_pairwise_lt {α : Type} :
    ∀ (l : List α) (n : Nat),
      (List.enumFrom n l).Pairwise (fun a b => a.1 < b.1) := by
  intro l
  induction l with
  | nil => intro n; exact List.Pairwise.nil
  | cons x xs ih =>
    intro n
    refine List.Pairwise.cons ?_ (ih (n + 1))
    intro p hp
    exact Nat.lt_of_succ_le (mem_enumFrom_le xs (n + 1) p hp)

/-- The `get_extracted_dicoms` loop over all-tarball input: starting from a
state whose numbered sessions all lie below the counter, each tarball gets
the next counter value as its session label. -/
theorem gedFold (w : TarWorld) (tmpdir : String) (names : String → List String) :
    ∀ (l : List String) (acc : Sessions) (k : Nat),
      (∀ f ∈ l, w.tarContent f = some (names f)) →
      (∀ e ∈ acc, ∀ j, e.1 = some j → j < k) →
      l.foldl (gedStep w tmpdir) (acc, k) =
        (acc ++ (List.enumFrom k l).map
            (fun it => (some it.1, (names it.2).map (fun nm => pjoin tmpdir nm))),
         k + l.length) := by
  intro l
  induction l with
  | nil => intro acc k _ _; simp [List.enumFrom]
  | cons t l ih =>
    intro acc k hall hacc
    rw [List.foldl_cons]
    have ht : w.tarContent t = some (names t) := hall t (by simp)
    have hany : acc.any (fun e => decide (e.1 = some k)) = false := by
      rw [List.any_eq_false]
      intro e he
      simp only [decide_eq_true_eq]
      intro hek
      exact absurd (hacc e he k hek) (Nat.lt_irrefl k)
    have hstep : gedStep w tmpdir (acc, k) t =
        (acc ++ [(some k, (names t).map (fun nm => pjoin tmpdir nm))], k + 1) := by
      unfold gedStep
      rw [ht]
      dsimp only
      rw [dSet, hany]
      simp
    rw [hstep]
    rw [ih (acc ++ [(some k, (names t).map (fun nm => pjoin tmpdir nm))]) (k + 1)
        (fun f hf => hall f (List.mem_cons_of_mem _ hf))
        (by
          intro e he j hj
          rcases List.mem_append.mp he with he1 | he2
          · exact Nat.lt_succ_of_lt (hacc e he1 j hj)
          · simp at he2
            rw [he2] at hj
            simp at hj
            omega)]
    rw [show List.enumFrom k (t :: l) = (k, t) :: List.enumFrom (k + 1) l from rfl]
    rw [List.map_cons, List.append_assoc]
    simp
    omega

/-- `get_extracted_dicoms` on an all-tarball list that is not a singleton:
sessions are `0 .. n-1` in sorted filename order, no collapse. -/
theorem ged_all_tar (w : TarWorld) (tmpdir : String) (names : String → List String)
    (fl : List String)
    (hall : ∀ f ∈ fl, w.tarContent f = some (names f))
    (hlen : fl.length ≠ 1) :
    get_extracted_dicoms w tmpdir fl =
      (sortStrings fl).enum.map
        (fun it => (some it.1, (names it.2).map (fun nm => pjoin tmpdir nm))) := by
  have hmem : ∀ f ∈ sortStrings fl, w.tarContent f = some (names f) := by
    intro f hf
    exact hall f ((List.perm_insertionSort _ fl).mem_iff.mp hf)
  have hlen2 : (sortStrings fl).length = fl.length :=
    (List.perm_insertionSort _ fl).length_eq
  have hfold := gedFold w tmpdir names (sortStrings fl) [] 0 hmem (by simp)
  unfold get_extracted_dicoms
  rw [hfold]
  dsimp only
  rw [if_neg (by rw [hlen2]; omega)]
  rw [List.nil_append]
  rfl

/-- `get_extracted_dicoms` on a single tarball: the lone session `0` is
collapsed into the `None` session carrying the tarball's files. -/
theorem ged_single_tar (w : TarWorld) (tmpdir : String)
    (names : String → List String) (t : String)
    (ht : w.tarContent t = some (names t)) :
    get_extracted_dicoms w tmpdir [t] =
      [(none, (names t).map (fun nm => pjoin tmpdir nm))] := by
  have hfold := gedFold w tmpdir names [t] [] 0
    (by intro f hf; simp at hf; rw [hf]; exact ht) (by simp)
  unfold get_extracted_dicoms
  rw [show sortStrings [t] = [t] from rfl]
  rw [hfold]
  dsimp only
  rw [if_pos (by simp)]
  simp [collapseSingle, List.enumFrom]

theorem sortStrings_length (l : List String) :
    (sortStrings l).length = l.length :=
  (List.perm_insertionSort _ l).length_eq

theorem sortStrings_idem (l : List String) :
    sortStrings (sortStrings l) = sortStrings l := by
  have h1 : IsTotal String (fun a b => strLe a b = true) := ⟨strLe_total⟩
  have h2 : IsTrans String (fun a b => strLe a b = true) :=
    ⟨fun _ _ _ hab hbc => strLe_trans hab hbc⟩
  exact List.Sorted.insertionSort_eq (List.sorted_insertionSort _ l)

/-- Folding the template-branch dict assignment over session groups with
pairwise-distinct session keys just appends the keyed entries. -/
theorem dSetSS_foldl_sess (session : Option String) (sid : String) :
    ∀ (l : Sessions) (acc : List (StudySessionInfo × SSValue)),
      (∀ x ∈ l, ∀ e ∈ acc,
        e.1 ≠ { locator := none, session := sessKeyOf x.1 session,
                subject := some sid }) →
      l.Pairwise (fun a b => sessKeyOf a.1 session ≠ sessKeyOf b.1 session) →
      l.foldl (fun acc2 sf =>
          dSetSS acc2
            { locator := none, session := sessKeyOf sf.1 session,
              subject := some sid } (.files sf.2)) acc =
        acc ++ l.map (fun sf =>
          ({ locator := none, session := sessKeyOf sf.1 session,
             subject := some sid }, SSValue.files sf.2)) := by
  intro l
  induction l with
  | nil => intro acc _ _; simp
  | cons x xs ih =>
    intro acc hdisj hpw
    rw [List.foldl_cons]
    have hany : acc.any (fun e => decide
        (e.1 = { locator := none, session := sessKeyOf x.1 session,
                 subject := some sid })) = false := by
      rw [List.any_eq_false]
      intro e he
      simp only [decide_eq_true_eq]
      exact hdisj x (by simp) e he
    have hstep : dSetSS acc
        { locator := none, session := sessKeyOf x.1 session,
          subject := some sid } (.files x.2) =
        acc ++ [({ locator := none, session := sessKeyOf x.1 session,
                   subject := some sid }, SSValue.files x.2)] := by
      rw [dSetSS, hany]
      simp
    rw [hstep]
    rw [ih (acc ++ [_]) ?_ (List.Pairwise.sublist (List.sublist_cons_self x xs) hpw)]
    · rw [List.map_cons, List.append_assoc]
      rfl
    · intro y hy e he
      rcases List.mem_append.mp he with he1 | he2
      · exact hdisj y (List.mem_cons_of_mem _ hy) e he1
      · simp at he2
        rw [he2]
        have hne := (List.pairwise_cons.mp hpw).1 y hy
        simp only [ne_eq, StudySessionInfo.mk.injEq]
        intro hcon
        exact hne hcon.2.1

/-- C5: on an all-tarball match list, `get_extracted_dicoms` labels the `n ≥ 2`
sorted tarballs with sessions `0 .. n-1`; a single tarball is collapsed to the
`None` session; and the template branch of `get_study_sessions` registers one
`StudySessionInfo` key per tarball — `n` pairwise-distinct keys differing only
in the numeric session label. -/
theorem C5_tarball_session_labels (w : TarWorld) (tmpdir : String)
    (names : String → List String) :
    (∀ fl : List String,
      (∀ f ∈ fl, w.tarContent f = some (names f)) →
      2 ≤ fl.length →
      get_extracted_dicoms w tmpdir fl =
        (sortStrings fl).enum.map
          (fun it => (some it.1, (names it.2).map (fun nm => pjoin tmpdir nm)))) ∧
    (∀ t : String,
      w.tarContent t = some (names t) →
      get_extracted_dicoms w tmpdir [t] =
        [(none, (names t).map (fun nm => pjoin tmpdir nm))]) ∧
    (∀ (abspath : String → String)
       (fmtTemplate : String → String → Option String → String)
       (glob : String → List String) (findFilesIn : String → List String)
       (isDir : String → Bool) (read : String → Option DicomRecord)
       (tpl : String) (heuristic : Heuristic) (outdir : String)
       (session : Option String) (sid : String) (grouping : Option String)
       (fl : List String),
      (∀ f ∈ fl, w.tarContent f = some (names f)) →
      strHasSub (abspath tpl) "{subject}" = true →
      glob (fmtTemplate (abspath tpl) sid session) = fl →
      2 ≤ fl.length →
      ∃ L : List (StudySessionInfo × SSValue),
        get_study_sessions abspath fmtTemplate glob findFilesIn isDir w tmpdir
            read (some tpl) [] heuristic outdir session [sid] grouping = .ok L ∧
        L = (sortStrings fl).enum.map (fun it =>
          ({ locator := none, session := some (.num it.1), subject := some sid },
           SSValue.files ((names it.2).map (fun nm => pjoin tmpdir nm)))) ∧
        L.length = fl.length ∧
        L.Pairwise (fun a b => a.1 ≠ b.1)) := by
  refine ⟨?_, ?_, ?_⟩
  · intro fl hall hlen
    exact ged_all_tar w tmpdir names fl hall (by omega)
  · intro t ht
    exact ged_single_tar w tmpdir names t ht
  · intro abspath fmtTemplate glob findFilesIn isDir read tpl heuristic outdir
      session sid grouping fl hall hsub hglob hlen
    have hmemS : ∀ f ∈ sortStrings fl, w.tarContent f = some (names f) := by
      intro f hf
      exact hall f ((List.perm_insertionSort _ fl).mem_iff.mp hf)
    have hged : get_extracted_dicoms w tmpdir (sortStrings fl) =
        (sortStrings fl).enum.map
          (fun it => (some it.1, (names it.2).map (fun nm => pjoin tmpdir nm))) := by
      have h0 := ged_all_tar w tmpdir names (sortStrings fl) hmemS
        (by rw [sortStrings_length]; omega)
      rw [h0, sortStrings_idem]
    refine ⟨_, ?_, rfl, ?_, ?_⟩
    · unfold get_study_sessions
      dsimp only
      rw [if_neg (by simp)]
      rw [if_neg (by simp)]
      rw [if_neg (by rw [hsub]; simp)]
      rw [List.foldl_cons, List.foldl_nil]
      rw [hglob, hged]
      have hfold := dSetSS_foldl_sess session sid
        ((sortStrings fl).enum.map
          (fun it => (some it.1, (names it.2).map (fun nm => pjoin tmpdir nm)))) []
        (by intro x _ e he; cases he)
        (by
          rw [List.pairwise_map]
          refine (enumFrom_pairwise_lt (sortStrings fl) 0).imp ?_
          intro a b hab
          simp only [sessKeyOf, ne_eq, Option.some.injEq]
          intro hcon
          injection hcon with h2
          omega)
      rw [hfold, List.nil_append, List.map_map]
      rfl
    · rw [List.length_map, List.enum_length]
      exact sortStrings_length fl
    · rw [List.pairwise_map]
      refine (enumFrom_pairwise_lt (sortStrings fl) 0).imp ?_
      intro a b hab
      simp only [ne_eq, StudySessionInfo.mk.injEq]
      intro hcon
      have h2 := hcon.2.1
      simp only [Option.some.injEq] at h2
      injection h2 with h3
      omega

/-- A tarball world with two archives for the C5 witness. -/
def wTar5 : TarWorld :=
  ⟨fun f => if f = "A.tar" then some ["a1", "a2"]
    else if f = "B.tar" then some ["b1"] else none⟩

/-- Member names of the two archives. -/
def wNames5 : String → List String := fun f =>
  if f = "A.tar" then ["a1", "a2"] else if f = "B.tar" then ["b1"] else []

/-- A minimal heuristic for the template branch (never consulted there). -/
def wHeur5 : Heuristic := ⟨"h5", none, none, fun _ => [], none⟩

/-- Witness for C5: two tarballs produce sessions 0 and 1 in sorted order, a
single tarball collapses to the `None` session, and the template branch
registers one key per tarball session. -/
theorem C5_tarball_session_labels_witness :
    get_extracted_dicoms wTar5 "/tmp" ["B.tar", "A.tar"] =
      [(some 0, ["/tmp/a1", "/tmp/a2"]), (some 1, ["/tmp/b1"])] ∧
    get_extracted_dicoms wTar5 "/tmp" ["A.tar"] =
      [(none, ["/tmp/a1", "/tmp/a2"])] ∧
    get_study_sessions (fun s => s) (fun t _ _ => t) (fun _ => ["B.tar", "A.tar"])
        (fun _ => []) (fun _ => false) wTar5 "/tmp" (fun _ => none)
        (some "{subject}") [] wHeur5 "out" none ["S1"] none =
      .ok [({ locator := none, session := some (.num 0), subject := some "S1" },
            .files ["/tmp/a1", "/tmp/a2"]),
           ({ locator := none, session := some (.num 1), subject := some "S1" },
            .files ["/tmp/b1"])] := by
  obtain ⟨ha, hb, hc⟩ := C5_tarball_session_labels wTar5 "/tmp" wNames5
  refine ⟨?_, ?_, ?_⟩
  · exact (ha ["B.tar", "A.tar"] (by decide) (by decide)).trans (by decide)
  · exact (hb "A.tar" (by decide)).trans (by decide)
  · obtain ⟨L, h1, h2, _, _⟩ := hc (fun s => s) (fun t _ _ => t)
      (fun _ => ["B.tar", "A.tar"]) (fun _ => []) (fun _ => false) (fun _ => none)
      "{subject}" wHeur5 "out" none "S1" none ["B.tar", "A.tar"]
      (by decide) (by decide) rfl (by decide)
    rw [h1, h2]
    decide

/-! ### Collision handling in the scan branch (claim C3) -/

/-- The registration loop, from an arbitrary collision-free state: lookups
in the resulting dictionary see the state first and otherwise the first
entry resolving to the key; keys stay pairwise distinct; every processed
entry either lands in the dictionary or in the warned list. -/
theorem regFold (itds : List SeqInfo → String → IdsDict) (outdir : String)
    (session : Option String) :
    ∀ (entries : List (Option String × List (SeqInfo × List String)))
      (acc : List (StudySessionInfo × SSValue) × List StudySessionInfo),
      acc.1.Pairwise (fun a b => a.1 ≠ b.1) →
      (∀ key : StudySessionInfo,
        (entries.foldl (registerStep itds outdir session) acc).1.find?
            (fun e => decide (e.1 = key)) =
          (acc.1.find? (fun e => decide (e.1 = key))).or
            ((entries.find? (fun en =>
                decide (ssKeyOf itds outdir session en = key))).map
              (fun en => (key, SSValue.seqs en.2)))) ∧
      (entries.foldl (registerStep itds outdir session) acc).1.Pairwise
        (fun a b => a.1 ≠ b.1) ∧
      (entries.foldl (registerStep itds outdir session) acc).1.length +
          (entries.foldl (registerStep itds outdir session) acc).2.length =
        acc.1.length + acc.2.length + entries.length := by
  intro entries
  induction entries with
  | nil =>
    intro acc hpw
    refine ⟨?_, hpw, by simp⟩
    intro key
    simp
  | cons en rest ih =>
    intro acc hpw
    rw [List.foldl_cons]
    by_cases hk : acc.1.any (fun e =>
        decide (e.1 = ssKeyOf itds outdir session en)) = true
    · have hstep : registerStep itds outdir session acc en =
          (acc.1, acc.2 ++ [ssKeyOf itds outdir session en]) := by
        rw [registerStep, if_pos hk]
      rw [hstep]
      obtain ⟨hfind, hpw2, hlen⟩ := ih (acc.1, acc.2 ++ [_]) hpw
      refine ⟨?_, hpw2, by simp at hlen ⊢; omega⟩
      intro key
      rw [hfind key]
      by_cases hkey : ssKeyOf itds outdir session en = key
      · have hsome : (acc.1.find? (fun e => decide (e.1 = key))).isSome := by
          rw [List.find?_isSome]
          obtain ⟨e, he, hpe⟩ := List.any_eq_true.mp hk
          refine ⟨e, he, ?_⟩
          simp only [decide_eq_true_eq] at hpe ⊢
          rw [hpe, hkey]
        obtain ⟨e, he⟩ := Option.isSome_iff_exists.mp hsome
        rw [he]
        rfl
      · rw [List.find?_cons_of_neg]
        simp only [decide_eq_true_eq]
        exact hkey
    · have hanyf : acc.1.any (fun e =>
          decide (e.1 = ssKeyOf itds outdir session en)) = false :=
        Bool.not_eq_true _ ▸ eq_false_of_ne_true hk
      have hstep : registerStep itds outdir session acc en =
          (acc.1 ++ [(ssKeyOf itds outdir session en, .seqs en.2)], acc.2) := by
        rw [registerStep, if_neg (by rw [hanyf]; simp)]
      rw [hstep]
      have hpw2 : (acc.1 ++ [(ssKeyOf itds outdir session en, SSValue.seqs en.2)]).Pairwise
          (fun a b => a.1 ≠ b.1) := by
        rw [List.pairwise_append]
        refine ⟨hpw, by simp, ?_⟩
        intro a ha b hb
        simp at hb
        rw [hb]
        have := List.any_eq_false.mp hanyf a ha
        simp only [decide_eq_true_eq] at this
        exact this
      obtain ⟨hfind, hpw3, hlen⟩ := ih (acc.1 ++ [_], acc.2) hpw2
      refine ⟨?_, hpw3, by simp at hlen ⊢; omega⟩
      intro key
      rw [hfind key, List.find?_append, Option.or_assoc]
      by_cases hkey : ssKeyOf itds outdir session en = key
      · have h1 : [(ssKeyOf itds outdir session en, SSValue.seqs en.2)].find?
            (fun e => decide (e.1 = key)) =
            some (ssKeyOf itds outdir session en, SSValue.seqs en.2) := by
          rw [List.find?_cons_of_pos]
          simp only [decide_eq_true_eq]
          exact hkey
        have h2 : (en :: rest).find? (fun en2 =>
            decide (ssKeyOf itds outdir session en2 = key)) = some en := by
          rw [List.find?_cons_of_pos]
          simp only [decide_eq_true_eq]
          exact hkey
        rw [h1, h2]
        rw [hkey]
        rfl
      · have h1 : [(ssKeyOf itds outdir session en, SSValue.seqs en.2)].find?
            (fun e => decide (e.1 = key)) = none := by
          rw [List.find?_cons_of_neg]
          · rfl
          · simp only [decide_eq_true_eq]
            exact hkey
        have h2 : (en :: rest).find? (fun en2 =>
            decide (ssKeyOf itds outdir session en2 = key)) =
            rest.find? (fun en2 => decide (ssKeyOf itds outdir session en2 = key)) := by
          rw [List.find?_cons_of_neg]
          simp only [decide_eq_true_eq]
          exact hkey
        rw [h1, h2]
        rfl

/-- C3: in scan-driven resolution, when several study clusters resolve to the
same `StudySessionInfo` key, the first cluster's entry is kept, later
occurrences are discarded into the warned list, nothing is raised, and each
key's stored value is the `seqinfo` of the first cluster resolving to it. -/
theorem C3_collision_first_writer_wins
    (itds : List SeqInfo → String → IdsDict) (outdir : String)
    (session : Option String)
    (entries : List (Option String × List (SeqInfo × List String))) :
    (∀ key : StudySessionInfo,
      (registerStudySessions itds outdir session entries).1.find?
          (fun e => decide (e.1 = key)) =
        (entries.find? (fun en =>
            decide (ssKeyOf itds outdir session en = key))).map
          (fun en => (key, SSValue.seqs en.2))) ∧
    (registerStudySessions itds outdir session entries).1.Pairwise
      (fun a b => a.1 ≠ b.1) ∧
    (registerStudySessions itds outdir session entries).1.length +
        (registerStudySessions itds outdir session entries).2.length =
      entries.length ∧
    (∀ (abspath : String → String)
       (fmtTemplate : String → String → Option String → String)
       (glob : String → List String) (findFilesIn : String → List String)
       (isDir : String → Bool) (w : TarWorld) (tmpdir : String)
       (read : String → Option DicomRecord) (files_opt : List String)
       (heuristic : Heuristic) (grouping : Option String),
      files_opt ≠ [] →
      heuristic.infotoids = some itds →
      group_dicoms_into_seqinfos read
          (scanFiles findFilesIn isDir w tmpdir files_opt)
          heuristic.filter_files heuristic.filter_dicom grouping =
        .ok (.grouped entries) →
      get_study_sessions abspath fmtTemplate glob findFilesIn isDir w tmpdir
          read none files_opt heuristic outdir session [] grouping =
        .ok (registerStudySessions itds outdir session entries).1) := by
  obtain ⟨hfind, hpw, hlen⟩ :=
    regFold itds outdir session entries ([], []) List.Pairwise.nil
  refine ⟨?_, hpw, by simpa using hlen, ?_⟩
  · intro key
    rw [registerStudySessions, hfind key]
    rfl
  · intro abspath fmtTemplate glob findFilesIn isDir w tmpdir read files_opt
      heuristic grouping hfo hitds hgroup
    unfold get_study_sessions
    dsimp only
    rw [if_neg (by simpa using hfo)]
    rw [if_neg (by simp)]
    rw [hgroup]
    dsimp only
    rw [hitds]

/-- A world with no tarballs, for the C3 witness. -/
def wTarNone : TarWorld := ⟨fun _ => none⟩

/-- An `infotoids` resolving every cluster to the same ids (forcing a key
collision between the two studies of `sampleRead2`). -/
def wItds3 : List SeqInfo → String → IdsDict :=
  fun _ _ => { locator := some "L", session := none, subject := some "S" }

/-- A heuristic carrying `wItds3`. -/
def wHeur3 : Heuristic := ⟨"h3", none, none, fun _ => [], some wItds3⟩

/-- The colliding `StudySessionInfo` key. -/
def wKey3 : StudySessionInfo :=
  { locator := some "L", session := none, subject := some "S" }

/-- The two study clusters produced by grouping the two-study world. -/
def wEntries3 : List (Option String × List (SeqInfo × List String)) :=
  match group_dicoms_into_seqinfos sampleRead2
      (scanFiles (fun _ => []) (fun _ => false) wTarNone "/tmp" ["f1", "f2"])
      none none (some "studyUID") with
  | .ok (.grouped e) => e
  | _ => []

/-- Witness for C3: two clusters collide on one key; the registered map holds
one entry (the first cluster's), one key is warned about, and the scan branch
of `get_study_sessions` returns it without raising. -/
theorem C3_collision_first_writer_wins_witness :
    wEntries3.length = 2 ∧
    (registerStudySessions wItds3 "out" none wEntries3).1.find?
        (fun e => decide (e.1 = wKey3)) =
      (wEntries3.find? (fun en =>
          decide (ssKeyOf wItds3 "out" none en = wKey3))).map
        (fun en => (wKey3, SSValue.seqs en.2)) ∧
    (registerStudySessions wItds3 "out" none wEntries3).1.length = 1 ∧
    (registerStudySessions wItds3 "out" none wEntries3).2 = [wKey3] ∧
    get_study_sessions (fun s => s) (fun t _ _ => t) (fun _ => []) (fun _ => [])
        (fun _ => false) wTarNone "/tmp" sampleRead2 none ["f1", "f2"] wHeur3
        "out" none [] (some "studyUID") =
      .ok (registerStudySessions wItds3 "out" none wEntries3).1 := by
  obtain ⟨hfind, _, _, hgss⟩ :=
    C3_collision_first_writer_wins wItds3 "out" none wEntries3
  refine ⟨by decide, hfind wKey3, by decide, by decide, ?_⟩
  exact hgss (fun s => s) (fun t _ _ => t) (fun _ => []) (fun _ => [])
    (fun _ => false) wTarNone "/tmp" sampleRead2 ["f1", "f2"] wHeur3
    (some "studyUID") (by decide) rfl (by decide)

/-! ## JSON persistence of the filegroup (utils.py:168-195, 240-255)

`save_json` writes `_canonical_dumps(data, sort_keys=True, indent=4)`;
`load_json` is `json.load`.  The filegroup saved by `convert_dicoms`
(utils.py:1313-1315) maps series-id strings to lists of file-path strings,
so the codec is modelled on exactly that value shape: `canonical_dumps`
reproduces `json.dumps(..., sort_keys=True, indent=4)` including its
ASCII escaping, and `json_loads` models `json.load` on such documents
(strict strings, JSON whitespace, surrogate-pair decoding). -/

/-- Lowercase hex digit, as emitted by Python's `\uXXXX` escapes. -/
def hexDigit (n : Nat) : Char :=
  if n < 10 then Char.ofNat (48 + n) else Char.ofNat (87 + n)

/-- The four hex digits of a basic-plane code unit. -/
def hexDigits (n : Nat) : List Char :=
  [hexDigit (n / 4096 % 16), hexDigit (n / 256 % 16),
   hexDigit (n / 16 % 16), hexDigit (n % 16)]

/-- A `\uXXXX` escape. -/
def uEscape (n : Nat) : List Char := '\\' :: 'u' :: hexDigits n

/-- Python `json`'s ESCAPE_ASCII character encoding (json/encoder.py):
short escapes for `\ " \b \t \n \f \r`, `\uXXXX` for other characters
outside `0x20..0x7e` (surrogate pairs above the basic plane), the
character itself otherwise. -/
def escapeChar (c : Char) : List Char :=
  if c = '\\' then ['\\', '\\']
  else if c = '"' then ['\\', '"']
  else if c = Char.ofNat 8 then ['\\', 'b']
  else if c = '\t' then ['\\', 't']
  else if c = '\n' then ['\\', 'n']
  else if c = Char.ofNat 12 then ['\\', 'f']
  else if c = Char.ofNat 13 then ['\\', 'r']
  else if c.toNat < 32 ∨ 126 < c.toNat then
    if c.toNat < 65536 then uEscape c.toNat
    else uEscape (55296 + (c.toNat - 65536) / 1024) ++
      uEscape (56320 + (c.toNat - 65536) % 1024)
  else [c]

/-- A JSON string literal for `s`. -/
def dumpStr (s : String) : List Char :=
  '"' :: (s.data.flatMap escapeChar ++ ['"'])

/-- One `indent=4` level. -/
def spaces4 : List Char := [' ', ' ', ' ', ' ']

/-- Two `indent=4` levels. -/
def spaces8 : List Char := [' ', ' ', ' ', ' ', ' ', ' ', ' ', ' ']

/-- A non-first array element as printed under `indent=4`. -/
def arrItemText (v : String) : List Char :=
  ',' :: '\n' :: (spaces8 ++ dumpStr v)

/-- An array body (everything after the opening bracket). -/
def arrBody : List String → List Char
  | [] => [']']
  | v :: vt =>
    '\n' :: (spaces8 ++ dumpStr v ++ vt.flatMap arrItemText ++
      '\n' :: (spaces4 ++ [']']))

/-- A printed array of strings. -/
def dumpList (vs : List String) : List Char := '[' :: arrBody vs

/-- One printed object entry (indented key, colon, array). -/
def dumpEntry (e : String × List String) : List Char :=
  spaces4 ++ dumpStr e.1 ++ ':' :: ' ' :: dumpList e.2

/-- A non-first object entry. -/
def objItemText (e : String × List String) : List Char :=
  ',' :: '\n' :: dumpEntry e

/-- `sort_keys=True`: entries ordered by Python string comparison of keys. -/
def sortEntries (m : List (String × List String)) : List (String × List String) :=
  List.insertionSort (fun a b => strLe a.1 b.1 = true) m

/-- `_canonical_dumps(data, sort_keys=True, indent=4)` (utils.py:168-195) on a
filegroup value.  The printer emits no trailing whitespace, which is exactly
what the `out.replace(' \n', '\n')` normalization guarantees. -/
def canonical_dumps (m : List (String × List String)) : String :=
  match sortEntries m with
  | [] => "\x7b\x7d"
  | e :: es =>
    String.mk ('{' :: '\n' ::
      (dumpEntry e ++ es.flatMap objItemText ++ '\n' :: ['}']))

/-- JSON whitespace (json/decoder.py WHITESPACE). -/
def isJsonWs (c : Char) : Bool :=
  c = ' ' ∨ c = '\t' ∨ c = '\n' ∨ c = Char.ofNat 13

/-- Drop leading JSON whitespace. -/
def skipWs : List Char → List Char
  | [] => []
  | c :: cs => if isJsonWs c then skipWs cs else c :: cs

/-- Prepend a decoded character to a string-parse result. -/
def consFst (c : Char) (r : Option (List Char × List Char)) :
    Option (List Char × List Char) :=
  r.map (fun p => (c :: p.1, p.2))

/-- Hex digit value, both cases (json accepts either). -/
def hexVal (c : Char) : Option Nat :=
  if 48 ≤ c.toNat ∧ c.toNat ≤ 57 then some (c.toNat - 48)
  else if 97 ≤ c.toNat ∧ c.toNat ≤ 102 then some (c.toNat - 87)
  else if 65 ≤ c.toNat ∧ c.toNat ≤ 70 then some (c.toNat - 55)
  else none

/-- Four hex digits to a code unit. -/
def parseHex4 : List Char → Option (Nat × List Char)
  | c1 :: c2 :: c3 :: c4 :: cs =>
    match hexVal c1, hexVal c2, hexVal c3, hexVal c4 with
    | some h1, some h2, some h3, some h4 =>
      some (h1 * 4096 + h2 * 256 + h3 * 16 + h4, cs)
    | _, _, _, _ => none
  | _ => none

/-- Decode the digits of a `\u` escape, combining surrogate pairs as
`py_scanstring` does.  A lone surrogate is unrepresentable in `Char`, so
the model rejects it (the encoder never produces one). -/
def parseUEscape (s : List Char) : Option (Char × List Char) :=
  match parseHex4 s with
  | none => none
  | some (n, cs) =>
    if 55296 ≤ n ∧ n ≤ 56319 then
      match cs with
      | b1 :: b2 :: cs2 =>
        if b1 = '\\' ∧ b2 = 'u' then
          match parseHex4 cs2 with
          | some (n2, cs3) =>
            if 56320 ≤ n2 ∧ n2 ≤ 57343 then
              some (Char.ofNat (65536 + (n - 55296) * 1024 + (n2 - 56320)), cs3)
            else none
          | none => none
        else none
      | _ => none
    else if 56320 ≤ n ∧ n ≤ 57343 then none
    else some (Char.ofNat n, cs)

/-- `py_scanstring` after the opening quote: strict (control characters
rejected), the eight backslash escapes, `\uXXXX`.  Returns the decoded
characters and the text after the closing quote. -/
def parseStringBody : Nat → List Char → Option (List Char × List Char)
  | 0, _ => none
  | _ + 1, [] => none
  | fuel + 1, c :: cs =>
    if c = '"' then some ([], cs)
    else if c = '\\' then
      match cs with
      | [] => none
      | e :: cs2 =>
        if e = '"' then consFst '"' (parseStringBody fuel cs2)
        else if e = '\\' then consFst '\\' (parseStringBody fuel cs2)
        else if e = '/' then consFst '/' (parseStringBody fuel cs2)
        else if e = 'b' then consFst (Char.ofNat 8) (parseStringBody fuel cs2)
        else if e = 'f' then consFst (Char.ofNat 12) (parseStringBody fuel cs2)
        else if e = 'n' then consFst '\n' (parseStringBody fuel cs2)
        else if e = 'r' then consFst (Char.ofNat 13) (parseStringBody fuel cs2)
        else if e = 't' then consFst '\t' (parseStringBody fuel cs2)
        else if e = 'u' then
          match parseUEscape cs2 with
          | some (c2, cs3) => consFst c2 (parseStringBody fuel cs3)
          | none => none
        else none
    else if c.toNat < 32 then none
    else consFst c (parseStringBody fuel cs)

/-- Array elements after the first one. -/
def parseArrTail : Nat → List Char → Option (List String × List Char)
  | 0, _ => none
  | fuel + 1, s =>
    match skipWs s with
    | ']' :: r => some ([], r)
    | ',' :: r =>
      match skipWs r with
      | '"' :: r2 =>
        match parseStringBody (r2.length + 1) r2 with
        | some (cs, r3) =>
          (parseArrTail fuel r3).map (fun p => (String.mk cs :: p.1, p.2))
        | none => none
      | _ => none
    | _ => none

/-- An array of strings, after the opening bracket. -/
def parseArr (s : List Char) : Option (List String × List Char) :=
  match skipWs s with
  | ']' :: r => some ([], r)
  | '"' :: r =>
    match parseStringBody (r.length + 1) r with
    | some (cs, r2) =>
      (parseArrTail (r2.length + 1) r2).map (fun p => (String.mk cs :: p.1, p.2))
    | none => none
  | _ => none

/-- The rest of an entry after its key: colon and array value. -/
def parseEntryRest (k : List Char) (r2 : List Char) :
    Option ((String × List String) × List Char) :=
  match skipWs r2 with
  | ':' :: r3 =>
    match skipWs r3 with
    | '[' :: r4 =>
      match parseArr r4 with
      | some (vs, r5) => some ((String.mk k, vs), r5)
      | none => none
    | _ => none
  | _ => none

/-- One `"key": [...]` entry, starting at the key's opening quote. -/
def parseEntry (s : List Char) : Option ((String × List String) × List Char) :=
  match s with
  | '"' :: r =>
    match parseStringBody (r.length + 1) r with
    | some (k, r2) => parseEntryRest k r2
    | none => none
  | _ => none

/-- Object entries after the first one. -/
def parseObjTail : Nat → List Char → Option (List (String × List String) × List Char)
  | 0, _ => none
  | fuel + 1, s =>
    match skipWs s with
    | '}' :: r => some ([], r)
    | ',' :: r =>
      match parseEntry (skipWs r) with
      | some (e, r2) =>
        (parseObjTail fuel r2).map (fun p => (e :: p.1, p.2))
      | none => none
    | _ => none

/-- An object, after the opening brace. -/
def parseObj (s : List Char) : Option (List (String × List String) × List Char) :=
  match skipWs s with
  | '}' :: r => some ([], r)
  | s2 =>
    match parseEntry s2 with
    | some (e, r2) =>
      (parseObjTail (r2.length + 1) r2).map (fun p => (e :: p.1, p.2))
    | none => none

/-- `json.load` (utils.py:240-255) on a filegroup-shaped document: the
single object, with nothing but whitespace after it. -/
def json_loads (s : String) : Option (List (String × List String)) :=
  match skipWs s.data with
  | '{' :: r =>
    match parseObj r with
    | some (m, rest) => if skipWs rest = [] then some m else none
    | none => none
  | _ => none

/-! ### Character-level round trip of the string escaping -/

theorem char_toNat_inj {a b : Char} (h : a.toNat = b.toNat) : a = b := by
  have h2 := Char.ofNat_toNat a
  have h3 := Char.ofNat_toNat b
  rw [← h2, ← h3, h]

theorem char_bounds (c : Char) :
    c.toNat < 55296 ∨ (57344 ≤ c.toNat ∧ c.toNat < 1114112) := by
  have h := c.valid
  rcases h with h | ⟨h1, h2⟩
  · left
    have h3 : c.val.toNat < (55296 : UInt32).toNat := h
    simpa [Char.toNat] using h3
  · right
    have g1 : (57344 : UInt32).toNat ≤ c.val.toNat := h1
    have g2 : c.val.toNat < (1114112 : UInt32).toNat := h2
    constructor
    · simpa [Char.toNat] using g1
    · simpa [Char.toNat] using g2

theorem hexVal_hexDigit (d : Nat) (h : d < 16) :
    hexVal (hexDigit d) = some d := by
  interval_cases d <;> decide

theorem parseHex4_hexDigits (n : Nat) (rest : List Char) :
    parseHex4 (hexDigits n ++ rest) = some (n % 65536, rest) := by
  show parseHex4 (hexDigit (n / 4096 % 16) :: hexDigit (n / 256 % 16) ::
    hexDigit (n / 16 % 16) :: hexDigit (n % 16) :: rest) = some (n % 65536, rest)
  rw [parseHex4]
  rw [hexVal_hexDigit _ (by omega), hexVal_hexDigit _ (by omega),
    hexVal_hexDigit _ (by omega), hexVal_hexDigit _ (by omega)]
  dsimp only
  congr 1
  rw [Prod.mk.injEq]
  exact ⟨by omega, rfl⟩

theorem parseUEscape_bmp (n : Nat) (h1 : n < 65536)
    (h2 : ¬(55296 ≤ n ∧ n ≤ 57343)) (rest : List Char) :
    parseUEscape (hexDigits n ++ rest) = some (Char.ofNat n, rest) := by
  rw [parseUEscape, parseHex4_hexDigits, Nat.mod_eq_of_lt h1]
  dsimp only
  rw [if_neg (by omega), if_neg (by omega)]

theorem parseUEscape_astral (n : Nat) (h1 : 65536 ≤ n) (h2 : n < 1114112)
    (rest : List Char) :
    parseUEscape (hexDigits (55296 + (n - 65536) / 1024) ++
      ('\\' :: 'u' :: (hexDigits (56320 + (n - 65536) % 1024) ++ rest))) =
      some (Char.ofNat n, rest) := by
  rw [parseUEscape, parseHex4_hexDigits,
    Nat.mod_eq_of_lt (by omega : 55296 + (n - 65536) / 1024 < 65536)]
  dsimp only
  rw [if_pos (by omega)]
  rw [if_pos ⟨rfl, rfl⟩]
  rw [parseHex4_hexDigits,
    Nat.mod_eq_of_lt (by omega : 56320 + (n - 65536) % 1024 < 65536)]
  dsimp only
  rw [if_pos (by omega)]
  rw [show 65536 + (55296 + (n - 65536) / 1024 - 55296) * 1024 +
      (56320 + (n - 65536) % 1024 - 56320) = n from by omega]

theorem flatMap_len_ge {α β : Type} (f : α → List β) (h : ∀ a, 1 ≤ (f a).length) :
    ∀ l : List α, l.length ≤ (l.flatMap f).length := by
  intro l
  induction l with
  | nil => simp
  | cons a l ih =>
    rw [List.flatMap_cons, List.length_append, List.length_cons]
    have := h a
    omega

theorem escapeChar_len (c : Char) : 1 ≤ (escapeChar c).length := by
  rw [escapeChar]
  repeat' split
  all_goals simp [uEscape, hexDigits]

theorem escape_len (cs : List Char) :
    cs.length ≤ (cs.flatMap escapeChar).length :=
  flatMap_len_ge escapeChar escapeChar_len cs

/-- Unfolding of the decoder on a unicode escape. -/
theorem parseStringBody_uEsc (f : Nat) (t : List Char) :
    parseStringBody (f + 1) ('\\' :: 'u' :: t) =
      (match parseUEscape t with
       | some (c2, cs3) => consFst c2 (parseStringBody f cs3)
       | none => none) := by
  simp [parseStringBody]

/-- Decoding inverts the ESCAPE_ASCII encoding, character by character. -/
theorem parseStringBody_escape :
    ∀ (cs : List Char) (fuel : Nat) (rest : List Char),
      cs.length < fuel →
      parseStringBody fuel (cs.flatMap escapeChar ++ '"' :: rest) =
        some (cs, rest) := by
  intro cs
  induction cs with
  | nil =>
    intro fuel rest h
    match fuel with
    | f + 1 => simp [parseStringBody]
  | cons c ct ih =>
    intro fuel rest h
    match fuel with
    | f + 1 =>
    have hct : ct.length < f := by
      rw [List.length_cons] at h
      omega
    have hih := ih f rest hct
    rw [List.flatMap_cons, List.append_assoc]
    by_cases h1 : c = '\\'
    · rw [h1, show escapeChar '\\' = ['\\', '\\'] from rfl]
      simp only [List.cons_append, List.nil_append, parseStringBody]
      simp [hih, consFst]
    · by_cases h2 : c = '"'
      · rw [h2, show escapeChar '"' = ['\\', '"'] from rfl]
        simp only [List.cons_append, List.nil_append, parseStringBody]
        simp [hih, consFst]
      · by_cases h3 : c = Char.ofNat 8
        · rw [h3, show escapeChar (Char.ofNat 8) = ['\\', 'b'] from rfl]
          simp only [List.cons_append, List.nil_append, parseStringBody]
          simp [hih, consFst]
        · by_cases h4 : c = '\t'
          · rw [h4, show escapeChar '\t' = ['\\', 't'] from rfl]
            simp only [List.cons_append, List.nil_append, parseStringBody]
            simp [hih, consFst]
          · by_cases h5 : c = '\n'
            · rw [h5, show escapeChar '\n' = ['\\', 'n'] from rfl]
              simp only [List.cons_append, List.nil_append, parseStringBody]
              simp [hih, consFst]
            · by_cases h6 : c = Char.ofNat 12
              · rw [h6, show escapeChar (Char.ofNat 12) = ['\\', 'f'] from rfl]
                simp only [List.cons_append, List.nil_append, parseStringBody]
                simp [hih, consFst]
              · by_cases h7 : c = Char.ofNat 13
                · rw [h7, show escapeChar (Char.ofNat 13) = ['\\', 'r'] from rfl]
                  simp only [List.cons_append, List.nil_append, parseStringBody]
                  simp [hih, consFst]
                · by_cases h8 : c.toNat < 32 ∨ 126 < c.toNat
                  · rw [show escapeChar c =
                        (if c.toNat < 65536 then uEscape c.toNat
                         else uEscape (55296 + (c.toNat - 65536) / 1024) ++
                           uEscape (56320 + (c.toNat - 65536) % 1024)) from by
                      rw [escapeChar, if_neg h1, if_neg h2, if_neg h3, if_neg h4,
                        if_neg h5, if_neg h6, if_neg h7, if_pos h8]]
                    by_cases h9 : c.toNat < 65536
                    · rw [if_pos h9]
                      rw [show uEscape c.toNat ++ (ct.flatMap escapeChar ++ '"' :: rest) =
                          '\\' :: 'u' :: (hexDigits c.toNat ++
                            (ct.flatMap escapeChar ++ '"' :: rest)) from by
                        rw [uEscape]; simp]
                      rw [parseStringBody_uEsc]
                      rw [parseUEscape_bmp c.toNat h9
                        (by rcases char_bounds c with hb | hb <;> omega)]
                      simp [hih, consFst, Char.ofNat_toNat]
                    · rw [if_neg h9]
                      have hb : c.toNat < 1114112 := by
                        rcases char_bounds c with hb | ⟨_, hb⟩ <;> omega
                      rw [show (uEscape (55296 + (c.toNat - 65536) / 1024) ++
                            uEscape (56320 + (c.toNat - 65536) % 1024)) ++
                          (ct.flatMap escapeChar ++ '"' :: rest) =
                          '\\' :: 'u' :: (hexDigits (55296 + (c.toNat - 65536) / 1024) ++
                            ('\\' :: 'u' :: (hexDigits (56320 + (c.toNat - 65536) % 1024) ++
                              (ct.flatMap escapeChar ++ '"' :: rest)))) from by
                        rw [uEscape, uEscape]; simp]
                      rw [parseStringBody_uEsc]
                      rw [parseUEscape_astral c.toNat (by omega) hb]
                      simp [hih, consFst, Char.ofNat_toNat]
                  · rw [show escapeChar c = [c] from by
                      rw [escapeChar, if_neg h1, if_neg h2, if_neg h3, if_neg h4,
                        if_neg h5, if_neg h6, if_neg h7, if_neg h8]]
                    rw [List.singleton_append]
                    simp only [parseStringBody]
                    rw [if_neg h2, if_neg h1, if_neg (by omega : ¬c.toNat < 32)]
                    simp [hih, consFst]

/-! ### Structural round trip of the printed document

Each helper equation consumes a concretely-printed prefix of the document
up to the next opaque sub-parse, and holds by reduction. -/

theorem arrItemText_len (v : String) : 1 ≤ (arrItemText v).length := by
  simp [arrItemText]

theorem objItemText_len (e : String × List String) :
    1 ≤ (objItemText e).length := by
  simp [objItemText]

theorem parseArrTail_close (f : Nat) (rest : List Char) :
    parseArrTail (f + 1) ('\n' :: (spaces4 ++ (']' :: rest))) =
      some ([], rest) := rfl

theorem parseArrTail_step (f : Nat) (X : List Char) :
    parseArrTail (f + 1) (',' :: '\n' :: (spaces8 ++ ('"' :: X))) =
      (match parseStringBody (X.length + 1) X with
       | some (cs, r3) =>
         (parseArrTail f r3).map (fun p => (String.mk cs :: p.1, p.2))
       | none => none) := rfl

theorem parseArr_close (rest : List Char) :
    parseArr (']' :: rest) = some ([], rest) := rfl

theorem parseArr_quote (X : List Char) :
    parseArr ('\n' :: (spaces8 ++ ('"' :: X))) =
      (match parseStringBody (X.length + 1) X with
       | some (cs, r2) =>
         (parseArrTail (r2.length + 1) r2).map (fun p => (String.mk cs :: p.1, p.2))
       | none => none) := rfl

theorem parseEntry_quote (X : List Char) :
    parseEntry ('"' :: X) =
      (match parseStringBody (X.length + 1) X with
       | some (k, r2) => parseEntryRest k r2
       | none => none) := rfl

theorem parseEntryRest_step (k : List Char) (R : List Char) :
    parseEntryRest k (':' :: ' ' :: ('[' :: R)) =
      (match parseArr R with
       | some (vs, r5) => some ((String.mk k, vs), r5)
       | none => none) := rfl

theorem parseObjTail_close (f : Nat) (rest : List Char) :
    parseObjTail (f + 1) ('\n' :: ('}' :: rest)) = some ([], rest) := rfl

theorem parseObjTail_step (f : Nat) (X : List Char) :
    parseObjTail (f + 1) (',' :: '\n' :: (spaces4 ++ ('"' :: X))) =
      (match parseEntry ('"' :: X) with
       | some (e, r2) => (parseObjTail f r2).map (fun p => (e :: p.1, p.2))
       | none => none) := rfl

theorem parseObj_entry (X : List Char) :
    parseObj ('\n' :: (spaces4 ++ ('"' :: X))) =
      (match parseEntry ('"' :: X) with
       | some (e, r2) =>
         (parseObjTail (r2.length + 1) r2).map (fun p => (e :: p.1, p.2))
       | none => none) := rfl

theorem json_loads_brace (D : List Char) :
    json_loads (String.mk ('{' :: D)) =
      (match parseObj D with
       | some (m, rest) => if skipWs rest = [] then some m else none
       | none => none) := rfl

/-- Parsing inverts printing for one string literal followed by `rest`. -/
theorem parseStr_dump (v : String) (T : List Char) :
    parseStringBody ((v.data.flatMap escapeChar ++ '"' :: T).length + 1)
        (v.data.flatMap escapeChar ++ '"' :: T) = some (v.data, T) := by
  apply parseStringBody_escape
  have := escape_len v.data
  simp only [List.length_append, List.length_cons]
  omega

theorem parseArrTail_items :
    ∀ (vs : List String) (fuel : Nat) (rest : List Char),
      vs.length < fuel →
      parseArrTail fuel
          (vs.flatMap arrItemText ++ ('\n' :: (spaces4 ++ (']' :: rest)))) =
        some (vs, rest) := by
  intro vs
  induction vs with
  | nil =>
    intro fuel rest h
    match fuel with
    | f + 1 =>
      rw [List.flatMap_nil, List.nil_append, parseArrTail_close]
  | cons v vt ih =>
    intro fuel rest h
    match fuel with
    | f + 1 =>
    have hvt : vt.length < f := by
      rw [List.length_cons] at h
      omega
    rw [List.flatMap_cons, List.append_assoc]
    rw [show arrItemText v ++
          (vt.flatMap arrItemText ++ ('\n' :: (spaces4 ++ (']' :: rest)))) =
        ',' :: '\n' :: (spaces8 ++ ('"' :: (v.data.flatMap escapeChar ++ '"' ::
          (vt.flatMap arrItemText ++ ('\n' :: (spaces4 ++ (']' :: rest)))))))
        from by simp [arrItemText, dumpStr]]
    rw [parseArrTail_step]
    rw [parseStr_dump]
    dsimp only
    rw [ih f rest hvt]
    rfl

theorem parseArr_body (vs : List String) (rest : List Char) :
    parseArr (arrBody vs ++ rest) = some (vs, rest) := by
  cases vs with
  | nil =>
    rw [show arrBody [] ++ rest = ']' :: rest from by simp [arrBody]]
    rw [parseArr_close]
  | cons v vt =>
    rw [show arrBody (v :: vt) ++ rest =
        '\n' :: (spaces8 ++ ('"' :: (v.data.flatMap escapeChar ++ '"' ::
          (vt.flatMap arrItemText ++ ('\n' :: (spaces4 ++ (']' :: rest)))))))
        from by simp [arrBody, dumpStr]]
    rw [parseArr_quote]
    rw [parseStr_dump]
    dsimp only
    rw [parseArrTail_items vt _ rest (by
      have := flatMap_len_ge arrItemText arrItemText_len vt
      simp only [List.length_append, List.length_cons]
      omega)]
    rfl

theorem parseEntry_dump (k : String) (vs : List String) (T : List Char) :
    parseEntry ('"' :: (k.data.flatMap escapeChar ++ '"' ::
        (':' :: ' ' :: ('[' :: (arrBody vs ++ T))))) =
      some ((k, vs), T) := by
  rw [parseEntry_quote]
  rw [parseStr_dump]
  dsimp only
  rw [parseEntryRest_step]
  rw [parseArr_body]

theorem parseObjTail_items :
    ∀ (es : List (String × List String)) (fuel : Nat) (rest : List Char),
      es.length < fuel →
      parseObjTail fuel (es.flatMap objItemText ++ ('\n' :: ('}' :: rest))) =
        some (es, rest) := by
  intro es
  induction es with
  | nil =>
    intro fuel rest h
    match fuel with
    | f + 1 =>
      rw [List.flatMap_nil, List.nil_append, parseObjTail_close]
  | cons e et ih =>
    intro fuel rest h
    match fuel with
    | f + 1 =>
    have het : et.length < f := by
      rw [List.length_cons] at h
      omega
    rw [List.flatMap_cons, List.append_assoc]
    rw [show objItemText e ++
          (et.flatMap objItemText ++ ('\n' :: ('}' :: rest))) =
        ',' :: '\n' :: (spaces4 ++ ('"' :: (e.1.data.flatMap escapeChar ++ '"' ::
          (':' :: ' ' :: ('[' :: (arrBody e.2 ++
            (et.flatMap objItemText ++ ('\n' :: ('}' :: rest)))))))))
        from by simp [objItemText, dumpEntry, dumpList, dumpStr]]
    rw [parseObjTail_step]
    rw [parseEntry_dump e.1 e.2]
    dsimp only
    rw [ih f rest het]
    rfl

theorem parseObj_doc (e : String × List String)
    (es : List (String × List String)) (rest : List Char) :
    parseObj ('\n' :: (dumpEntry e ++
        (es.flatMap objItemText ++ ('\n' :: ('}' :: rest))))) =
      some (e :: es, rest) := by
  rw [show ('\n' : Char) :: (dumpEntry e ++
        (es.flatMap objItemText ++ ('\n' :: ('}' :: rest)))) =
      '\n' :: (spaces4 ++ ('"' :: (e.1.data.flatMap escapeChar ++ '"' ::
        (':' :: ' ' :: ('[' :: (arrBody e.2 ++
          (es.flatMap objItemText ++ ('\n' :: ('}' :: rest)))))))))
      from by simp [dumpEntry, dumpList, dumpStr]]
  rw [parseObj_entry]
  rw [parseEntry_dump e.1 e.2]
  dsimp only
  rw [parseObjTail_items es _ rest (by
    have := flatMap_len_ge objItemText objItemText_len es
    simp only [List.length_append, List.length_cons]
    omega)]
  rfl

/-- Parsing inverts printing: the loaded value is the key-sorted filegroup. -/
theorem json_loads_dumps (m : List (String × List String)) :
    json_loads (canonical_dumps m) = some (sortEntries m) := by
  rcases hs : sortEntries m with _ | ⟨e, es⟩
  · rw [canonical_dumps, hs]
    decide
  · rw [canonical_dumps, hs]
    dsimp only
    rw [show ('{' : Char) :: '\n' ::
        (dumpEntry e ++ es.flatMap objItemText ++ '\n' :: ['}']) =
        '{' :: ('\n' :: (dumpEntry e ++ (es.flatMap objItemText ++
          ('\n' :: ('}' :: ([] : List Char)))))) from by simp]
    rw [json_loads_brace]
    rw [parseObj_doc e es []]
    rfl

/-- `find?` is permutation-invariant when at most one element matches. -/
theorem find?_perm_unique {α : Type} (p : α → Bool) :
    ∀ (l1 l2 : List α), l1.Perm l2 →
      (∀ a ∈ l1, ∀ b ∈ l1, p a = true → p b = true → a = b) →
      l1.find? p = l2.find? p := by
  intro l1 l2 hperm huniq
  cases h1 : l1.find? p with
  | none =>
    rw [List.find?_eq_none] at h1
    symm
    rw [List.find?_eq_none]
    intro x hx
    exact h1 x (hperm.mem_iff.mpr hx)
  | some a =>
    have ha := List.find?_some h1
    have hmem := List.mem_of_find?_eq_some h1
    have h2 : (l2.find? p).isSome := by
      rw [List.find?_isSome]
      exact ⟨a, hperm.mem_iff.mp hmem, ha⟩
    obtain ⟨b, hb⟩ := Option.isSome_iff_exists.mp h2
    have hbp := List.find?_some hb
    have hbm := List.mem_of_find?_eq_some hb
    rw [hb]
    rw [huniq a hmem b (hperm.mem_iff.mpr hbm) ha hbp]

/-- C8: persisting a filegroup with `save_json` (`_canonical_dumps` with
`sort_keys=True, indent=4`) and reloading it with `load_json` reproduces the
mapping: the loaded entry list is a permutation of the original (its
key-sorted form) and every key looks up the same file list. -/
theorem C8_filegroup_roundtrip (m : List (String × List String))
    (hnd : m.Pairwise (fun a b => a.1 ≠ b.1)) :
    ∃ m2, json_loads (canonical_dumps m) = some m2 ∧
      m2.Perm m ∧
      ∀ k : String, m2.find? (fun e => decide (e.1 = k)) =
        m.find? (fun e => decide (e.1 = k)) := by
  refine ⟨sortEntries m, json_loads_dumps m, List.perm_insertionSort _ m, ?_⟩
  intro k
  apply find?_perm_unique _ (sortEntries m) m (List.perm_insertionSort _ m)
  intro a ha b hb hpa hpb
  simp only [decide_eq_true_eq] at hpa hpb
  have ham : a ∈ m := (List.perm_insertionSort _ m).mem_iff.mp ha
  have hbm : b ∈ m := (List.perm_insertionSort _ m).mem_iff.mp hb
  by_cases hab : a = b
  · exact hab
  · exfalso
    have hsym : Symmetric (fun a b : String × List String => a.1 ≠ b.1) :=
      fun _ _ h hc => h hc.symm
    exact hnd.forall hsym ham hbm hab (by rw [hpa, hpb])

/-- A concrete filegroup, deliberately out of key order. -/
def wM8 : List (String × List String) :=
  [("7-BOLD", ["f1"]), ("2-T1w", ["f2", "f3"])]

/-- Witness for C8: the concrete filegroup satisfies the key-distinctness
hypothesis, round-trips through the printed JSON document, and comes back
key-sorted. -/
theorem C8_filegroup_roundtrip_witness :
    wM8.Pairwise (fun a b => a.1 ≠ b.1) ∧
    (∃ m2, json_loads (canonical_dumps wM8) = some m2 ∧
      m2.Perm wM8 ∧
      ∀ k : String, m2.find? (fun e => decide (e.1 = k)) =
        wM8.find? (fun e => decide (e.1 = k))) ∧
    json_loads (canonical_dumps wM8) =
      some [("2-T1w", ["f2", "f3"]), ("7-BOLD", ["f1"])] :=
  ⟨by decide, C8_filegroup_roundtrip wM8 (by decide), by decide⟩

/-! ## `conversion_info` (utils.py:573-614)

A plan's item group list is walked with `enumerate`; each item's files come
from `filegroup[item]`, retried as `filegroup[str(item)]` on `KeyError`
(utils.py:608-611); a second `KeyError` propagates and aborts the pass.
`template.format(**parameters)` is the external collaborator `fmt`. -/

/-- Dictionary update `d[k] = v` for the template parameters. -/
def pSet (l : List (String × PyKey)) (k : String) (v : PyKey) :
    List (String × PyKey) :=
  if l.any (fun e => decide (e.1 = k)) then
    l.map (fun e => if e.1 = k then (e.1, v) else e)
  else l ++ [(k, v)]

/-- `str(ses)` as used in `'ses-' + str(ses)` (utils.py:599). -/
def sesStr (ses : Option String) : String :=
  match ses with
  | some s => s
  | none => "None"

/-- Truthiness of `ses` (utils.py:601,603). -/
def sesTruthy (ses : Option String) : Bool :=
  ¬(ses = none ∨ ses = some "")

/-- An item's carried parameter dict (the dict case of utils.py:588-591,
with `'item'` already extracted into the entry's key). -/
def entryParams : ItemEntry → List (String × PyKey)
  | .plain _ => []
  | .withParams _ ps => ps

/-- The item value of an entry (`item` after utils.py:590). -/
def entryItem : ItemEntry → PyKey
  | .plain k => k
  | .withParams k _ => k

/-- `if not isinstance(itemgroup, list): itemgroup = [itemgroup]`
(utils.py:584-585). -/
def normGroup : InfoItem → List ItemEntry
  | .one e => [e]
  | .many es => es

/-- The helper meta-variables merged into the parameters (utils.py:594-606). -/
def mkParams (e : ItemEntry) (idx subindex : Nat) (subject : String)
    (ses : Option String) : List (String × PyKey) :=
  pSet (pSet (pSet (pSet (pSet (pSet (pSet (entryParams e)
    "item" (.i (Int.ofNat idx + 1)))
    "subject" (.s subject))
    "seqitem" (entryItem e))
    "subindex" (.i (Int.ofNat subindex + 1)))
    "session" (.s ("ses-" ++ sesStr ses)))
    "bids_subject_session_prefix"
    (.s ("sub-" ++ subject ++
      (if sesTruthy ses then "_ses-" ++ sesStr ses else ""))))
    "bids_subject_session_dir"
    (.s ("sub-" ++ subject ++
      (if sesTruthy ses then "/ses-" ++ sesStr ses else "")))

/-- `filegroup[item]` with the `KeyError` retry on `str(item)`
(utils.py:608-611); the propagated `KeyError` carries the retried key. -/
def itemFiles (filegroup : List (PyKey × List String)) (item : PyKey) :
    Except PyKey (List String) :=
  match (filegroup.find? (fun x => decide (x.1 = item))).map Prod.snd with
  | some fs => .ok fs
  | none =>
    match (filegroup.find?
        (fun x => decide (x.1 = PyKey.s (pyStr item)))).map Prod.snd with
    | some fs => .ok fs
    | none => .error (PyKey.s (pyStr item))

/-- The inner `for subindex, item in enumerate(itemgroup)` loop
(utils.py:586-613). -/
def convSub (filegroup : List (PyKey × List String)) (subject outdir : String)
    (fmt : String → List (String × PyKey) → String) (ses : Option String)
    (template : String) (outtypes : List String) (idx : Nat) :
    Nat → List ItemEntry →
    Except PyKey (List (String × List String × List String))
  | _, [] => .ok []
  | subindex, e :: es =>
    match itemFiles filegroup (entryItem e) with
    | .error k => .error k
    | .ok files =>
      match convSub filegroup subject outdir fmt ses template outtypes idx
          (subindex + 1) es with
      | .error k => .error k
      | .ok rest =>
        .ok ((pjoin outdir (fmt template (mkParams e idx subindex subject ses)),
          outtypes, files) :: rest)

/-- The `for idx, itemgroup in enumerate(items)` loop (utils.py:583-613). -/
def convGroups (filegroup : List (PyKey × List String)) (subject outdir : String)
    (fmt : String → List (String × PyKey) → String) (ses : Option String)
    (template : String) (outtypes : List String) :
    Nat → List InfoItem →
    Except PyKey (List (String × List String × List String))
  | _, [] => .ok []
  | idx, g :: gs =>
    match convSub filegroup subject outdir fmt ses template outtypes idx 0
        (normGroup g) with
    | .error k => .error k
    | .ok l1 =>
      match convGroups filegroup subject outdir fmt ses template outtypes
          (idx + 1) gs with
      | .error k => .error k
      | .ok l2 => .ok (l1 ++ l2)

/-- The outer loop over the plan with the `if not items: continue` skip
(utils.py:575-577). -/
def convEntries (filegroup : List (PyKey × List String)) (subject outdir : String)
    (fmt : String → List (String × PyKey) → String) (ses : Option String) :
    Info → Except PyKey (List (String × List String × List String))
  | [] => .ok []
  | ((template, outtypes), items) :: rest =>
    if items = [] then convEntries filegroup subject outdir fmt ses rest
    else
      match convGroups filegroup subject outdir fmt ses template outtypes 0
          items with
      | .error k => .error k
      | .ok l1 =>
        match convEntries filegroup subject outdir fmt ses rest with
        | .error k => .error k
        | .ok l2 => .ok (l1 ++ l2)

/-- `conversion_info` (utils.py:573-614). -/
def conversion_info (subject outdir : String)
    (fmt : String → List (String × PyKey) → String) (info : Info)
    (filegroup : List (PyKey × List String)) (ses : Option String) :
    Except PyKey (List (String × List String × List String)) :=
  convEntries filegroup subject outdir fmt ses info

/-- The item values `conversion_info` actually looks up. -/
def planItems (info : Info) : List PyKey :=
  info.flatMap (fun e =>
    if e.2 = [] then []
    else e.2.flatMap (fun g => (normGroup g).map entryItem))

theorem itemFiles_found (fg : List (PyKey × List String)) (item : PyKey)
    (p : PyKey × List String)
    (h : fg.find? (fun x => decide (x.1 = item)) = some p) :
    itemFiles fg item = .ok p.2 := by
  rw [itemFiles, h]
  rfl

theorem itemFiles_retry (fg : List (PyKey × List String)) (item : PyKey)
    (p : PyKey × List String)
    (h1 : fg.find? (fun x => decide (x.1 = item)) = none)
    (h2 : fg.find? (fun x => decide (x.1 = PyKey.s (pyStr item))) = some p) :
    itemFiles fg item = .ok p.2 := by
  rw [itemFiles, h1, h2]
  rfl

theorem itemFiles_error_elim (fg : List (PyKey × List String)) (item k : PyKey)
    (h : itemFiles fg item = .error k) :
    fg.find? (fun x => decide (x.1 = item)) = none ∧
    fg.find? (fun x => decide (x.1 = PyKey.s (pyStr item))) = none ∧
    k = PyKey.s (pyStr item) := by
  rw [itemFiles] at h
  rcases h1 : fg.find? (fun x => decide (x.1 = item)) with _ | p1
  · rw [h1] at h
    rcases h2 : fg.find? (fun x => decide (x.1 = PyKey.s (pyStr item))) with _ | p2
    · rw [h2] at h
      dsimp only [Option.map] at h
      cases h
      exact ⟨h1, h2, rfl⟩
    · rw [h2] at h
      dsimp only [Option.map] at h
      cases h
  · rw [h1] at h
    dsimp only [Option.map] at h
    cases h

theorem convSub_allOk (fg : List (PyKey × List String)) (subject outdir : String)
    (fmt : String → List (String × PyKey) → String) (ses : Option String)
    (template : String) (outtypes : List String) (idx : Nat) :
    ∀ (es : List ItemEntry) (si : Nat),
      (∀ e ∈ es, ∃ fs, itemFiles fg (entryItem e) = .ok fs) →
      ∃ l, convSub fg subject outdir fmt ses template outtypes idx si es =
        .ok l := by
  intro es
  induction es with
  | nil => intro si _; exact ⟨[], rfl⟩
  | cons e es ih =>
    intro si h
    obtain ⟨fs, hfs⟩ := h e (by simp)
    obtain ⟨l, hl⟩ := ih (si + 1) (fun x hx => h x (by simp [hx]))
    exact ⟨(pjoin outdir (fmt template (mkParams e idx si subject ses)),
      outtypes, fs) :: l, by rw [convSub, hfs, hl]⟩

theorem convSub_error (fg : List (PyKey × List String)) (subject outdir : String)
    (fmt : String → List (String × PyKey) → String) (ses : Option String)
    (template : String) (outtypes : List String) (idx : Nat) :
    ∀ (es : List ItemEntry) (si : Nat) (k : PyKey),
      convSub fg subject outdir fmt ses template outtypes idx si es =
        .error k →
      ∃ e ∈ es, itemFiles fg (entryItem e) = .error k := by
  intro es
  induction es with
  | nil => intro si k h; cases h
  | cons e es ih =>
    intro si k h
    rw [convSub] at h
    rcases hIt : itemFiles fg (entryItem e) with k2 | fs
    · rw [hIt] at h
      dsimp only at h
      cases h
      exact ⟨e, by simp, hIt⟩
    · rw [hIt] at h
      dsimp only at h
      rcases hR : convSub fg subject outdir fmt ses template outtypes idx
          (si + 1) es with k2 | l
      · rw [hR] at h
        dsimp only at h
        cases h
        obtain ⟨x, hx, hxe⟩ := ih (si + 1) k hR
        exact ⟨x, by simp [hx], hxe⟩
      · rw [hR] at h
        dsimp only at h
        cases h

theorem convGroups_allOk (fg : List (PyKey × List String))
    (subject outdir : String)
    (fmt : String → List (String × PyKey) → String) (ses : Option String)
    (template : String) (outtypes : List String) :
    ∀ (gs : List InfoItem) (idx : Nat),
      (∀ g ∈ gs, ∀ e ∈ normGroup g, ∃ fs, itemFiles fg (entryItem e) = .ok fs) →
      ∃ l, convGroups fg subject outdir fmt ses template outtypes idx gs =
        .ok l := by
  intro gs
  induction gs with
  | nil => intro idx _; exact ⟨[], rfl⟩
  | cons g gs ih =>
    intro idx h
    obtain ⟨l1, hl1⟩ := convSub_allOk fg subject outdir fmt ses template
      outtypes idx (normGroup g) 0 (h g (by simp))
    obtain ⟨l2, hl2⟩ := ih (idx + 1) (fun x hx => h x (by simp [hx]))
    exact ⟨l1 ++ l2, by rw [convGroups, hl1, hl2]⟩

theorem convGroups_error (fg : List (PyKey × List String))
    (subject outdir : String)
    (fmt : String → List (String × PyKey) → String) (ses : Option String)
    (template : String) (outtypes : List String) :
    ∀ (gs : List InfoItem) (idx : Nat) (k : PyKey),
      convGroups fg subject outdir fmt ses template outtypes idx gs =
        .error k →
      ∃ g ∈ gs, ∃ e ∈ normGroup g, itemFiles fg (entryItem e) = .error k := by
  intro gs
  induction gs with
  | nil => intro idx k h; cases h
  | cons g gs ih =>
    intro idx k h
    rw [convGroups] at h
    rcases hS : convSub fg subject outdir fmt ses template outtypes idx 0
        (normGroup g) with k2 | l1
    · rw [hS] at h
      dsimp only at h
      cases h
      obtain ⟨e, he, hee⟩ := convSub_error fg subject outdir fmt ses template
        outtypes idx (normGroup g) 0 k hS
      exact ⟨g, by simp, e, he, hee⟩
    · rw [hS] at h
      dsimp only at h
      rcases hG : convGroups fg subject outdir fmt ses template outtypes
          (idx + 1) gs with k2 | l2
      · rw [hG] at h
        dsimp only at h
        cases h
        obtain ⟨g2, hg2, e, he, hee⟩ := ih (idx + 1) k hG
        exact ⟨g2, by simp [hg2], e, he, hee⟩
      · rw [hG] at h
        dsimp only at h
        cases h

theorem convEntries_allOk (fg : List (PyKey × List String))
    (subject outdir : String)
    (fmt : String → List (String × PyKey) → String) (ses : Option String) :
    ∀ info : Info,
      (∀ item ∈ planItems info, ∃ fs, itemFiles fg item = .ok fs) →
      ∃ l, convEntries fg subject outdir fmt ses info = .ok l := by
  intro info
  induction info with
  | nil => intro _; exact ⟨[], rfl⟩
  | cons en rest ih =>
    intro h
    rcases en with ⟨⟨template, outtypes⟩, items⟩
    by_cases hit : items = []
    · obtain ⟨l, hl⟩ := ih (fun x hx => h x (by
        simp only [planItems, List.flatMap_cons, List.mem_append]
        right
        simpa [planItems] using hx))
      refine ⟨l, ?_⟩
      rw [convEntries, if_pos hit, hl]
    · obtain ⟨l1, hl1⟩ := convGroups_allOk fg subject outdir fmt ses template
        outtypes items 0 (by
          intro g hg e he
          refine h (entryItem e) ?_
          simp only [planItems, List.flatMap_cons, List.mem_append]
          left
          rw [if_neg hit]
          simp only [List.mem_flatMap, List.mem_map]
          exact ⟨g, hg, e, he, rfl⟩)
      obtain ⟨l2, hl2⟩ := ih (fun x hx => h x (by
        simp only [planItems, List.flatMap_cons, List.mem_append]
        right
        simpa [planItems] using hx))
      exact ⟨l1 ++ l2, by rw [convEntries, if_neg hit, hl1, hl2]⟩

theorem convEntries_error (fg : List (PyKey × List String))
    (subject outdir : String)
    (fmt : String → List (String × PyKey) → String) (ses : Option String) :
    ∀ (info : Info) (k : PyKey),
      convEntries fg subject outdir fmt ses info = .error k →
      ∃ item ∈ planItems info, itemFiles fg item = .error k := by
  intro info
  induction info with
  | nil => intro k h; cases h
  | cons en rest ih =>
    intro k h
    rcases en with ⟨⟨template, outtypes⟩, items⟩
    rw [convEntries] at h
    by_cases hit : items = []
    · rw [if_pos hit] at h
      obtain ⟨x, hx, hxe⟩ := ih k h
      refine ⟨x, ?_, hxe⟩
      simp only [planItems, List.flatMap_cons, List.mem_append]
      right
      simpa [planItems] using hx
    · rw [if_neg hit] at h
      rcases hG : convGroups fg subject outdir fmt ses template outtypes 0
          items with k2 | l1
      · rw [hG] at h
        dsimp only at h
        cases h
        obtain ⟨g, hg, e, he, hee⟩ := convGroups_error fg subject outdir fmt
          ses template outtypes items 0 k hG
        refine ⟨entryItem e, ?_, hee⟩
        simp only [planItems, List.flatMap_cons, List.mem_append]
        left
        rw [if_neg hit]
        simp only [List.mem_flatMap, List.mem_map]
        exact ⟨g, hg, e, he, rfl⟩
      · rw [hG] at h
        dsimp only at h
        rcases hR : convEntries fg subject outdir fmt ses rest with k2 | l2
        · rw [hR] at h
          dsimp only at h
          cases h
          obtain ⟨x, hx, hxe⟩ := ih k hR
          refine ⟨x, ?_, hxe⟩
          simp only [planItems, List.flatMap_cons, List.mem_append]
          right
          simpa [planItems] using hx
        · rw [hR] at h
          dsimp only at h
          cases h

/-- C10: `conversion_info` resolves each plan item by looking the item up as
given and, on a missing key, retrying with `str(item)`; an integer item thus
still resolves against a string-keyed filegroup, and a `KeyError` propagates
out of `conversion_info` only when both the original and the stringified key
are absent. -/
theorem C10_lookup_policy :
    (∀ (fg : List (PyKey × List String)) (item : PyKey)
       (p : PyKey × List String),
      fg.find? (fun x => decide (x.1 = item)) = some p →
      itemFiles fg item = .ok p.2) ∧
    (∀ (fg : List (PyKey × List String)) (item : PyKey)
       (p : PyKey × List String),
      fg.find? (fun x => decide (x.1 = item)) = none →
      fg.find? (fun x => decide (x.1 = PyKey.s (pyStr item))) = some p →
      itemFiles fg item = .ok p.2) ∧
    (∀ (fg : List (PyKey × List String)) (item k : PyKey),
      itemFiles fg item = .error k →
      fg.find? (fun x => decide (x.1 = item)) = none ∧
      fg.find? (fun x => decide (x.1 = PyKey.s (pyStr item))) = none ∧
      k = PyKey.s (pyStr item)) ∧
    (∀ (subject outdir : String)
       (fmt : String → List (String × PyKey) → String) (info : Info)
       (fg : List (PyKey × List String)) (ses : Option String),
      (∀ item ∈ planItems info, ∃ fs, itemFiles fg item = .ok fs) →
      ∃ l, conversion_info subject outdir fmt info fg ses = .ok l) ∧
    (∀ (subject outdir : String)
       (fmt : String → List (String × PyKey) → String) (info : Info)
       (fg : List (PyKey × List String)) (ses : Option String) (k : PyKey),
      conversion_info subject outdir fmt info fg ses = .error k →
      ∃ item ∈ planItems info,
        fg.find? (fun x => decide (x.1 = item)) = none ∧
        fg.find? (fun x => decide (x.1 = PyKey.s (pyStr item))) = none ∧
        k = PyKey.s (pyStr item)) := by
  refine ⟨itemFiles_found, itemFiles_retry, itemFiles_error_elim, ?_, ?_⟩
  · intro subject outdir fmt info fg ses h
    exact convEntries_allOk fg subject outdir fmt ses info h
  · intro subject outdir fmt info fg ses k h
    obtain ⟨item, hmem, herr⟩ := convEntries_error fg subject outdir fmt ses
      info k h
    exact ⟨item, hmem, itemFiles_error_elim fg item k herr⟩

/-- The string-keyed filegroup of the C10 witness, as reloaded from JSON. -/
def wFg10 : List (PyKey × List String) :=
  [(.s "1", ["fa"]), (.s "2-T1w", ["fb"])]

/-- A plan whose single item is the integer `1`. -/
def wInfo10 : Info := [(("t", ["nii"]), [.one (.plain (.i 1))])]

/-- A plan whose single item misses both keys. -/
def wInfoBad10 : Info := [(("t", ["nii"]), [.one (.plain (.i 7))])]

/-- Witness for C10: a string item resolves as given; the integer item `1`
resolves through `str(1)` against the string-keyed filegroup; the double miss
on `7` propagates; a resolvable plan converts; the failing plan's error names
the stringified key. -/
theorem C10_lookup_policy_witness :
    itemFiles wFg10 (.s "2-T1w") = .ok ["fb"] ∧
    itemFiles wFg10 (.i 1) = .ok ["fa"] ∧
    (wFg10.find? (fun x => decide (x.1 = PyKey.i 7)) = none ∧
     wFg10.find? (fun x => decide (x.1 = PyKey.s (pyStr (.i 7)))) = none ∧
     PyKey.s "7" = PyKey.s (pyStr (.i 7))) ∧
    (∃ l, conversion_info "S" "out" (fun t _ => t) wInfo10 wFg10 none = .ok l) ∧
    (∃ item ∈ planItems wInfoBad10,
      wFg10.find? (fun x => decide (x.1 = item)) = none ∧
      wFg10.find? (fun x => decide (x.1 = PyKey.s (pyStr item))) = none ∧
      PyKey.s "7" = PyKey.s (pyStr item)) := by
  obtain ⟨h1, h2, h3, h4, h5⟩ := C10_lookup_policy
  refine ⟨?_, ?_, ?_, ?_, ?_⟩
  · exact (h1 wFg10 (.s "2-T1w") (.s "2-T1w", ["fb"]) (by decide))
  · exact (h2 wFg10 (.i 1) (.s "1", ["fa"]) (by decide) (by decide))
  · exact h3 wFg10 (.i 7) (.s "7") (by decide)
  · refine h4 "S" "out" (fun t _ => t) wInfo10 wFg10 none ?_
    intro item him
    refine ⟨["fa"], ?_⟩
    have : item = PyKey.i 1 := by
      simpa [planItems, wInfo10, normGroup, entryItem] using him
    rw [this]
    decide
  · exact h5 "S" "out" (fun t _ => t) wInfoBad10 wFg10 none (.s "7") (by decide)

/-! ## Plan resolution in `convert_dicoms` (utils.py:1235-1323)

The filesystem is an insertion-ordered association list of paths to file
contents.  `write_config` stores `pformat(info)` and `read_config` recovers
it with `eval` (utils.py:561-570); the artifact is modelled as the stored
plan itself, which is exactly the `pformat`/`eval` round trip the code
relies on.  The filegroup JSON file holds its printed text, read back
through `json_loads`. -/

/-- Contents of a file in the model. -/
inductive FileData
  /-- a `pformat`-ed conversion plan (`.auto.txt` / `.edit.txt`) -/
  | cfg (info : Info)
  /-- a JSON document (`filegroup*.json`) -/
  | jsonText (text : String)
  /-- the `dicominfo*.tsv` dump of the seqinfo rows (utils.py:1316-1319) -/
  | tsvDump (rows : List SeqInfo)
  /-- the heuristic source copied into the info dir (utils.py:1285) -/
  | heuristicCopy (src : String)
deriving DecidableEq

/-- The modelled filesystem. -/
abbrev FS := List (String × FileData)

/-- Read a file. -/
def fsGet (fs : FS) (p : String) : Option FileData :=
  (fs.find? (fun e => decide (e.1 = p))).map Prod.snd

/-- Write a file (overwrite or create). -/
def fsSet (fs : FS) (p : String) (d : FileData) : FS :=
  if fs.any (fun e => decide (e.1 = p)) then
    fs.map (fun e => if e.1 = p then (e.1, d) else e)
  else fs ++ [(p, d)]

/-- Exceptions of the plan-resolution phase. -/
inductive ConvErr
  /-- neither dicoms nor seqinfo provided (utils.py:1251) -/
  | valueError
  /-- propagated from `group_dicoms_into_seqinfos` -/
  | groupError (e : GroupErr)
  /-- `grouping=None` cannot return a grouped dictionary (unreachable) -/
  | nonFlat
  /-- `read_config` on a file that is not a stored plan -/
  | readError
  /-- `load_json` failure on the filegroup file -/
  | jsonError
deriving DecidableEq

/-- `{si.series_id: x for si, x in seqinfo.items()}` (utils.py:1313):
insertion-ordered dict comprehension, last value wins. -/
def fgOfSeqinfo (entries : List (SeqInfo × List String)) :
    List (String × List String) :=
  entries.foldl (fun acc e =>
    if acc.any (fun x => decide (x.1 = e.1.series_id)) then
      acc.map (fun x => if x.1 = e.1.series_id then (x.1, e.2) else x)
    else acc ++ [(e.1.series_id, e.2)]) []

/-- `ses_suffix = "_ses-%s" % ses if ses is not None else ""`
(utils.py:1286). -/
def sesSuffix (ses : Option String) : String :=
  match ses with
  | some s => "_ses-" ++ s
  | none => ""

/-- `info_file` (utils.py:1287). -/
def info_file (idir sid : String) (ses : Option String) : String :=
  pjoin idir (sid ++ sesSuffix ses ++ ".auto.txt")

/-- `edit_file` (utils.py:1288). -/
def edit_file (idir sid : String) (ses : Option String) : String :=
  pjoin idir (sid ++ sesSuffix ses ++ ".edit.txt")

/-- `filegroup_file` (utils.py:1289). -/
def filegroup_file (idir : String) (ses : Option String) : String :=
  pjoin idir ("filegroup" ++ sesSuffix ses ++ ".json")

/-- `dicominfo_file` (utils.py:1316). -/
def dicominfo_file (idir : String) (ses : Option String) : String :=
  pjoin idir ("dicominfo" ++ sesSuffix ses ++ ".tsv")

/-- Destination of `shutil.copy(heuristic.filename, idir)` (utils.py:1285). -/
def heurCopyPath (idir : String) (heuristic : Heuristic) : String :=
  pjoin idir (pathBasename heuristic.filename)

/-- The else branch of the plan resolution (utils.py:1302-1323): group when
dicoms are given, build and save the filegroup, dump `dicominfo.tsv`, call
the heuristic, and write the auto and edit plans. -/
def resolvePlanFresh (read : String → Option DicomRecord) (heuristic : Heuristic)
    (fs : FS) (idir sid : String) (ses : Option String)
    (dicoms : List String)
    (seqinfoOpt : Option (List (SeqInfo × List String))) :
    Except ConvErr (Info × List (String × List String) × FS) :=
  match
    ((if dicoms ≠ [] then
      match group_dicoms_into_seqinfos read dicoms heuristic.filter_files
          heuristic.filter_dicom none with
      | .error e => .error (ConvErr.groupError e)
      | .ok (.flat entries) => .ok entries
      | .ok (.grouped _) => .error ConvErr.nonFlat
    else
      match seqinfoOpt with
      | some sq => .ok sq
      | none => .error ConvErr.valueError) :
      Except ConvErr (List (SeqInfo × List String))) with
  | .error e => .error e
  | .ok entries =>
    .ok (heuristic.infotodict (entries.map Prod.fst), fgOfSeqinfo entries,
      fsSet (fsSet (fsSet (fsSet fs
        (filegroup_file idir ses)
        (.jsonText (canonical_dumps (fgOfSeqinfo entries))))
        (dicominfo_file idir ses) (.tsvDump (entries.map Prod.fst)))
        (info_file idir sid ses)
        (.cfg (heuristic.infotodict (entries.map Prod.fst))))
        (edit_file idir sid ses)
        (.cfg (heuristic.infotodict (entries.map Prod.fst))))

/-- Plan resolution of `convert_dicoms` (utils.py:1246-1251 and 1285-1323):
the `ValueError` precheck, the heuristic copy into the info dir, the
artifact paths, and the branch on an existing edit file.  In the edit
branch the plan is `read_config(edit_file)` paired with
`load_json(filegroup_file)` and nothing is written. -/
def resolvePlan (read : String → Option DicomRecord) (heuristic : Heuristic)
    (fs : FS) (idir sid : String) (ses : Option String)
    (dicoms : List String)
    (seqinfoOpt : Option (List (SeqInfo × List String))) :
    Except ConvErr (Info × List (String × List String) × FS) :=
  if dicoms = [] ∧ seqinfoOpt = none then .error ConvErr.valueError
  else if (fsGet (fsSet fs (heurCopyPath idir heuristic)
      (.heuristicCopy heuristic.filename)) (edit_file idir sid ses)).isSome then
    match fsGet (fsSet fs (heurCopyPath idir heuristic)
        (.heuristicCopy heuristic.filename)) (edit_file idir sid ses) with
    | some (.cfg info) =>
      match fsGet (fsSet fs (heurCopyPath idir heuristic)
          (.heuristicCopy heuristic.filename)) (filegroup_file idir ses) with
      | some (.jsonText txt) =>
        match json_loads txt with
        | some fg =>
          .ok (info, fg, fsSet fs (heurCopyPath idir heuristic)
            (.heuristicCopy heuristic.filename))
        | none => .error ConvErr.jsonError
      | _ => .error ConvErr.jsonError
    | _ => .error ConvErr.readError
  else
    resolvePlanFresh read heuristic
      (fsSet fs (heurCopyPath idir heuristic) (.heuristicCopy heuristic.filename))
      idir sid ses dicoms seqinfoOpt

/-! ### Filesystem lemmas -/

theorem find?_map_keep (p q : String) (d : FileData) (h : q ≠ p) :
    ∀ fs : FS,
      (fs.map (fun e => if e.1 = p then (e.1, d) else e)).find?
          (fun e => decide (e.1 = q)) =
        fs.find? (fun e => decide (e.1 = q)) := by
  intro fs
  induction fs with
  | nil => rfl
  | cons e fs ih =>
    rw [List.map_cons]
    by_cases hep : e.1 = p
    · rw [if_pos hep]
      rw [List.find?_cons_of_neg, List.find?_cons_of_neg]
      · exact ih
      · simp only [decide_eq_true_eq]
        rw [hep]
        exact fun hc => h hc.symm
      · simp only [decide_eq_true_eq]
        rw [hep]
        exact fun hc => h hc.symm
    · rw [if_neg hep]
      by_cases heq : e.1 = q
      · rw [List.find?_cons_of_pos, List.find?_cons_of_pos]
        · simp only [decide_eq_true_eq]
          exact heq
        · simp only [decide_eq_true_eq]
          exact heq
      · rw [List.find?_cons_of_neg, List.find?_cons_of_neg]
        · exact ih
        · simp only [decide_eq_true_eq]
          exact heq
        · simp only [decide_eq_true_eq]
          exact heq

theorem fsGet_set_ne (fs : FS) (p q : String) (d : FileData) (h : q ≠ p) :
    fsGet (fsSet fs p d) q = fsGet fs q := by
  rw [fsSet]
  by_cases hany : fs.any (fun e => decide (e.1 = p)) = true
  · rw [if_pos hany, fsGet, fsGet, find?_map_keep p q d h]
  · rw [if_neg hany, fsGet, fsGet, List.find?_append]
    rw [show ([(p, d)] : FS).find? (fun e => decide (e.1 = q)) = none from by
      rw [List.find?_cons_of_neg]
      · rfl
      · simp only [decide_eq_true_eq]
        exact fun hc => h hc.symm]
    rw [Option.or_none]

theorem find?_map_set (p : String) (d : FileData) :
    ∀ fs : FS, fs.any (fun e => decide (e.1 = p)) = true →
      (fs.map (fun e => if e.1 = p then (e.1, d) else e)).find?
          (fun e => decide (e.1 = p)) = some (p, d) := by
  intro fs
  induction fs with
  | nil => intro h; cases h
  | cons e fs ih =>
    intro hany
    rw [List.map_cons]
    by_cases hep : e.1 = p
    · rw [if_pos hep]
      rw [List.find?_cons_of_pos]
      · rw [hep]
      · simp only [decide_eq_true_eq]
        exact hep
    · rw [if_neg hep]
      rw [List.find?_cons_of_neg]
      · refine ih ?_
        rw [List.any_cons] at hany
        simpa [hep] using hany
      · simp only [decide_eq_true_eq]
        exact hep

theorem fsGet_set_eq (fs : FS) (p : String) (d : FileData) :
    fsGet (fsSet fs p d) p = some d := by
  rw [fsSet]
  by_cases hany : fs.any (fun e => decide (e.1 = p)) = true
  · rw [if_pos hany, fsGet, find?_map_set p d fs hany]
    rfl
  · rw [Bool.not_eq_true] at hany
    rw [if_neg (by rw [hany]; simp), fsGet, List.find?_append]
    rw [List.find?_eq_none.mpr (List.any_eq_false.mp hany)]
    rw [Option.none_or]
    rw [List.find?_cons_of_pos]
    · rfl
    · simp

theorem fsSet_fsSet (fs : FS) (p : String) (d : FileData) :
    fsSet (fsSet fs p d) p d = fsSet fs p d := by
  by_cases hany : fs.any (fun e => decide (e.1 = p)) = true
  · have h1 : fsSet fs p d =
        fs.map (fun e => if e.1 = p then (e.1, d) else e) := by
      rw [fsSet, if_pos hany]
    rw [h1]
    rw [fsSet, if_pos (by
      obtain ⟨e, he, hpe⟩ := List.any_eq_true.mp hany
      refine List.any_eq_true.mpr ⟨(if e.1 = p then (e.1, d) else e), ?_, ?_⟩
      · exact List.mem_map_of_mem _ he
      · simp only [decide_eq_true_eq] at hpe
        rw [if_pos hpe]
        simpa using hpe)]
    rw [List.map_map]
    refine List.map_congr_left ?_
    intro e _
    by_cases hep : e.1 = p
    · simp [Function.comp, hep]
    · simp [Function.comp, hep]
  · rw [Bool.not_eq_true] at hany
    have h1 : fsSet fs p d = fs ++ [(p, d)] := by
      rw [fsSet, if_neg (by rw [hany]; simp)]
    rw [h1]
    rw [fsSet, if_pos (by
      refine List.any_eq_true.mpr ⟨(p, d), ?_, by simp⟩
      simp)]
    rw [List.map_append]
    have h2 : fs.map (fun e => if e.1 = p then (e.1, d) else e) = fs := by
      have h3 : ∀ e ∈ fs, (if e.1 = p then (e.1, d) else e) = e := by
        intro e he
        have h4 := List.any_eq_false.mp hany e he
        simp only [decide_eq_true_eq] at h4
        rw [if_neg h4]
      calc fs.map (fun e => if e.1 = p then (e.1, d) else e)
          = fs.map id := List.map_congr_left h3
        _ = fs := List.map_id fs
    rw [h2]
    simp

/-! ### The artifact paths are pairwise distinct where needed -/

theorem info_ne_edit (idir sid : String) (ses : Option String) :
    info_file idir sid ses ≠ edit_file idir sid ses := by
  intro he
  have hd := congrArg String.data he
  simp only [info_file, edit_file, pjoin, String.data_append,
    List.append_assoc] at hd
  have h1 := List.append_cancel_left hd
  have h2 := List.append_cancel_left h1
  have h3 := List.append_cancel_left h2
  have h4 := List.append_cancel_left h3
  exact absurd h4 (by decide)

theorem getLast_info (idir sid : String) (ses : Option String) :
    (info_file idir sid ses).data.getLast? = some 't' := by
  simp only [info_file, pjoin, String.data_append, List.append_assoc]
  rw [List.getLast?_append_of_ne_nil _ (by simp)]
  rw [List.getLast?_append_of_ne_nil _ (by simp)]
  rw [List.getLast?_append_of_ne_nil _ (by simp)]
  rw [List.getLast?_append_of_ne_nil _ (by simp)]
  decide

theorem getLast_filegroup (idir : String) (ses : Option String) :
    (filegroup_file idir ses).data.getLast? = some 'n' := by
  simp only [filegroup_file, pjoin, String.data_append, List.append_assoc]
  rw [List.getLast?_append_of_ne_nil _ (by simp)]
  rw [List.getLast?_append_of_ne_nil _ (by simp)]
  rw [List.getLast?_append_of_ne_nil _ (by simp)]
  rw [List.getLast?_append_of_ne_nil _ (by simp)]
  decide

theorem info_ne_filegroup (idir sid : String) (ses : Option String) :
    info_file idir sid ses ≠ filegroup_file idir ses := by
  intro he
  have hd := congrArg (fun s : String => s.data.getLast?) he
  rw [show (fun s : String => s.data.getLast?) (info_file idir sid ses) =
      some 't' from getLast_info idir sid ses] at hd
  rw [show (fun s : String => s.data.getLast?) (filegroup_file idir ses) =
      some 'n' from getLast_filegroup idir ses] at hd
  cases hd

/-- The edit branch of the plan resolution, from any filesystem whose edit
and filegroup artifacts are in place. -/
theorem resolvePlan_edit (read : String → Option DicomRecord)
    (heuristic : Heuristic) (fs : FS) (idir sid : String) (ses : Option String)
    (dicoms : List String) (seqinfoOpt : Option (List (SeqInfo × List String)))
    (info0 : Info) (txt : String) (fg0 : List (String × List String))
    (hd : dicoms ≠ [] ∨ seqinfoOpt ≠ none)
    (hedit : fsGet fs (edit_file idir sid ses) = some (.cfg info0))
    (hfg : fsGet fs (filegroup_file idir ses) = some (.jsonText txt))
    (hparse : json_loads txt = some fg0)
    (hne1 : heurCopyPath idir heuristic ≠ edit_file idir sid ses)
    (hne2 : heurCopyPath idir heuristic ≠ filegroup_file idir ses) :
    resolvePlan read heuristic fs idir sid ses dicoms seqinfoOpt =
      .ok (info0, fg0, fsSet fs (heurCopyPath idir heuristic)
        (.heuristicCopy heuristic.filename)) := by
  have hEd : fsGet (fsSet fs (heurCopyPath idir heuristic)
      (.heuristicCopy heuristic.filename)) (edit_file idir sid ses) =
      some (.cfg info0) := by
    rw [fsGet_set_ne fs _ _ _ (Ne.symm hne1)]
    exact hedit
  have hFg : fsGet (fsSet fs (heurCopyPath idir heuristic)
      (.heuristicCopy heuristic.filename)) (filegroup_file idir ses) =
      some (.jsonText txt) := by
    rw [fsGet_set_ne fs _ _ _ (Ne.symm hne2)]
    exact hfg
  rw [resolvePlan]
  rw [if_neg (by
    intro hc
    rcases hd with h | h
    · exact h hc.1
    · exact h hc.2)]
  rw [if_pos (by rw [hEd]; rfl)]
  rw [hEd]
  dsimp only
  rw [hFg]
  dsimp only
  rw [hparse]

/-- C1: once the edit-plan artifact exists, `convert_dicoms` resolves the
plan from the edit file and its paired filegroup JSON; the only filesystem
write is the heuristic copy (no auto/edit/filegroup/dicominfo artifact is
touched), the result does not depend on the DICOM reader or the dicom list,
a rewritten auto artifact is ignored, and a repeated invocation returns the
same plan without further writes. -/
theorem C1_edit_plan_override (read : String → Option DicomRecord)
    (heuristic : Heuristic) (fs : FS) (idir sid : String) (ses : Option String)
    (dicoms : List String) (seqinfoOpt : Option (List (SeqInfo × List String)))
    (info0 : Info) (txt : String) (fg0 : List (String × List String))
    (hd : dicoms ≠ [] ∨ seqinfoOpt ≠ none)
    (hedit : fsGet fs (edit_file idir sid ses) = some (.cfg info0))
    (hfg : fsGet fs (filegroup_file idir ses) = some (.jsonText txt))
    (hparse : json_loads txt = some fg0)
    (hne1 : heurCopyPath idir heuristic ≠ edit_file idir sid ses)
    (hne2 : heurCopyPath idir heuristic ≠ filegroup_file idir ses) :
    resolvePlan read heuristic fs idir sid ses dicoms seqinfoOpt =
      .ok (info0, fg0, fsSet fs (heurCopyPath idir heuristic)
        (.heuristicCopy heuristic.filename)) ∧
    (∀ p, p ≠ heurCopyPath idir heuristic →
      fsGet (fsSet fs (heurCopyPath idir heuristic)
        (.heuristicCopy heuristic.filename)) p = fsGet fs p) ∧
    (∀ (read2 : String → Option DicomRecord) (dicoms2 : List String)
       (sq2 : Option (List (SeqInfo × List String))),
      dicoms2 ≠ [] ∨ sq2 ≠ none →
      resolvePlan read2 heuristic fs idir sid ses dicoms2 sq2 =
        resolvePlan read heuristic fs idir sid ses dicoms seqinfoOpt) ∧
    (resolvePlan read heuristic
        (fsSet fs (heurCopyPath idir heuristic)
          (.heuristicCopy heuristic.filename)) idir sid ses dicoms seqinfoOpt =
      .ok (info0, fg0, fsSet fs (heurCopyPath idir heuristic)
        (.heuristicCopy heuristic.filename))) ∧
    (∀ d : FileData,
      resolvePlan read heuristic (fsSet fs (info_file idir sid ses) d)
          idir sid ses dicoms seqinfoOpt =
        .ok (info0, fg0, fsSet (fsSet fs (info_file idir sid ses) d)
          (heurCopyPath idir heuristic) (.heuristicCopy heuristic.filename))) := by
  have hmain := resolvePlan_edit read heuristic fs idir sid ses dicoms
    seqinfoOpt info0 txt fg0 hd hedit hfg hparse hne1 hne2
  refine ⟨hmain, ?_, ?_, ?_, ?_⟩
  · intro p hp
    exact fsGet_set_ne fs _ p _ hp
  · intro read2 dicoms2 sq2 hd2
    rw [hmain, resolvePlan_edit read2 heuristic fs idir sid ses dicoms2 sq2
      info0 txt fg0 hd2 hedit hfg hparse hne1 hne2]
  · rw [resolvePlan_edit read heuristic _ idir sid ses dicoms seqinfoOpt
      info0 txt fg0 hd
      (by rw [fsGet_set_ne fs _ _ _ (Ne.symm hne1)]; exact hedit)
      (by rw [fsGet_set_ne fs _ _ _ (Ne.symm hne2)]; exact hfg)
      hparse hne1 hne2]
    rw [fsSet_fsSet]
  · intro d
    exact resolvePlan_edit read heuristic _ idir sid ses dicoms seqinfoOpt
      info0 txt fg0 hd
      (by rw [fsGet_set_ne fs _ _ _ (Ne.symm (info_ne_edit idir sid ses))]
          exact hedit)
      (by rw [fsGet_set_ne fs _ _ _
            (fun hc => info_ne_filegroup idir sid ses hc.symm)]
          exact hfg)
      hparse hne1 hne2

/-- The C1 witness heuristic. -/
def wHeurC1 : Heuristic := ⟨"heur.py", none, none, fun _ => [], none⟩

/-- The C1 witness plan stored in the edit artifact. -/
def wPlanC1 : Info := [(("tpl", ["nii"]), [.one (.plain (.s "2-T1w"))])]

/-- The C1 witness filegroup document text. -/
def wTxtC1 : String :=
  canonical_dumps [("7-BOLD", ["f1"]), ("2-T1w", ["f2", "f3"])]

/-- The C1 witness filesystem: edit plan and filegroup JSON present, plus a
stale auto artifact that must be ignored. -/
def wFsC1 : FS :=
  [(edit_file "idir" "S" none, .cfg wPlanC1),
   (filegroup_file "idir" none, .jsonText wTxtC1),
   (info_file "idir" "S" none, .cfg [])]

/-- Witness for C1: with the edit artifact on disk the plan comes back from
it verbatim together with the parsed filegroup, the artifacts survive
untouched, and a second run from the updated filesystem returns the same
plan. -/
theorem C1_edit_plan_override_witness :
    resolvePlan (fun _ => none) wHeurC1 wFsC1 "idir" "S" none ["d1"] none =
      .ok (wPlanC1, [("2-T1w", ["f2", "f3"]), ("7-BOLD", ["f1"])],
        fsSet wFsC1 (heurCopyPath "idir" wHeurC1)
          (.heuristicCopy wHeurC1.filename)) ∧
    fsGet (fsSet wFsC1 (heurCopyPath "idir" wHeurC1)
        (.heuristicCopy wHeurC1.filename))
      (edit_file "idir" "S" none) = some (.cfg wPlanC1) ∧
    resolvePlan (fun _ => some (sampleRecord 9 "X" "U9" "s9")) wHeurC1 wFsC1
        "idir" "S" none ["other1", "other2"] none =
      resolvePlan (fun _ => none) wHeurC1 wFsC1 "idir" "S" none ["d1"] none ∧
    resolvePlan (fun _ => none) wHeurC1
        (fsSet wFsC1 (heurCopyPath "idir" wHeurC1)
          (.heuristicCopy wHeurC1.filename))
        "idir" "S" none ["d1"] none =
      .ok (wPlanC1, [("2-T1w", ["f2", "f3"]), ("7-BOLD", ["f1"])],
        fsSet wFsC1 (heurCopyPath "idir" wHeurC1)
          (.heuristicCopy wHeurC1.filename)) := by
  obtain ⟨h1, h2, h3, h4, _⟩ := C1_edit_plan_override (fun _ => none) wHeurC1
    wFsC1 "idir" "S" none ["d1"] none wPlanC1 wTxtC1
    [("2-T1w", ["f2", "f3"]), ("7-BOLD", ["f1"])]
    (Or.inl (by decide)) (by decide) (by decide) (by decide)
    (by decide) (by decide)
  refine ⟨h1, ?_, ?_, h4⟩
  · exact h2 (edit_file "idir" "S" none) (by decide) |>.trans (by decide)
  · exact h3 (fun _ => some (sampleRecord 9 "X" "U9" "s9"))
      ["other1", "other2"] none (Or.inl (by decide))

end HeudiConv
